import Mathlib

/-!
# Verification of the notehub-watch rolling time-series aggregator and event canary

A shallow embedding, in Lean 4, of the core of `blues/notehub-watch`:

* the bucketed stats store and its central mutation `uStatsAdd` (stats file),
* the cumulative-to-delta converter `ConvertStatsFromAbsoluteToRelative`
  (watcher file),
* the device-event canary `inboundWebCanaryHandler` / `canarySweepDevices`
  (canary file).

Modelling conventions:

* Go `int64` fields are modelled as `Int`.  No code path relevant to the
  verified properties depends on 64-bit signed wrap-around, and all of the
  concrete scenarios use values far below `2^63`, so signed overflow is not
  modelled.
* Go `uint64` fields are modelled as `Nat`, and every subtraction the source
  performs on a `uint64` is modelled with the explicit wrapping subtraction
  `wsub64` (`(2^64 + a - b) % 2^64`), because unsigned underflow is reachable
  there (counter resets) and the source explicitly guards the net counters
  against it.
* Go integer division truncates toward zero, which is `Int.tdiv`.
* Go maps are modelled as association lists.  Go's map iteration order is
  unspecified; the embedding fixes the association-list order.  Insertion of a
  missing key appends at the end.
* A Go runtime panic (index out of range, division by zero) is modelled by an
  `Option`-valued result, `none` meaning the panic.
-/

namespace Notehub

/-- Wrapping `uint64` subtraction, as performed by Go on `uint64` operands that
are below `2 ^ 64`. -/
def wsub64 (a b : Nat) : Nat := (2 ^ 64 + a - b) % 2 ^ 64

/-- `StatsDatabase` from the notehub definitions file: per-database counters. -/
structure StatsDatabase where
  reads : Int := 0
  readMs : Int := 0
  readMsMax : Int := 0
  writes : Int := 0
  writeMs : Int := 0
  writeMsMax : Int := 0
  deriving Repr, DecidableEq, Inhabited

/-- `StatsCache` from the notehub definitions file: per-cache counters. -/
structure StatsCache where
  invalidations : Int := 0
  entries : Int := 0
  entriesHWM : Int := 0
  deriving Repr, DecidableEq, Inhabited

/-- `StatsHandler` from the notehub definitions file: per-handler live data.
It is carried through the stats pipeline untouched. -/
structure StatsHandler where
  deviceUID : String := ""
  appUID : String := ""
  discovery : Bool := false
  continuous : Bool := false
  notification : Bool := false
  eventsEnqueued : Int := 0
  eventsDequeued : Int := 0
  eventsRouted : Int := 0
  deriving Repr, DecidableEq, Inhabited

/-- `StatsStat` from the notehub definitions file: one cumulative snapshot
taken by one service instance.  The `httpConnTotal` / `httpConnReused` fields
appear in the converter source; they are `int64` counters like the others. -/
structure StatsStat where
  serviceVersion : String := ""
  legacyServiceVersion : Int := 0
  nodeStarted : Int := 0
  bucketMins : Int := 0
  snapshotTaken : Int := 0
  osMemTotal : Nat := 0
  osMemFree : Nat := 0
  osDiskRead : Nat := 0
  osDiskWrite : Nat := 0
  osNetReceived : Nat := 0
  osNetSent : Nat := 0
  httpConnTotal : Int := 0
  httpConnReused : Int := 0
  discoveryHandlersActivated : Int := 0
  ephemeralHandlersActivated : Int := 0
  continuousHandlersActivated : Int := 0
  notificationHandlersActivated : Int := 0
  discoveryHandlersDeactivated : Int := 0
  ephemeralHandlersDeactivated : Int := 0
  continuousHandlersDeactivated : Int := 0
  notificationHandlersDeactivated : Int := 0
  eventsEnqueued : Int := 0
  eventsDequeued : Int := 0
  eventsRouted : Int := 0
  handlers : List (String × StatsHandler) := []
  databases : List (String × StatsDatabase) := []
  caches : List (String × StatsCache) := []
  api : List (String × Int) := []
  fatals : List (String × Int) := []
  deriving Repr, DecidableEq, Inhabited

/-! ## The delta converter (`ConvertStatsFromAbsoluteToRelative`) -/

/-- The prep step of the converter applied to `stats[0]`: snap its snapshot
time to the bucket grid.  (The source also replaces `nil` maps of `stats[0]`
by empty ones, which is the identity in the association-list model.) -/
def snapWhen (bucketSecs : Int) (s : StatsStat) : StatsStat :=
  { s with snapshotTaken := (Int.tdiv s.snapshotTaken bucketSecs) * bucketSecs }

/-- The single-snapshot special case of the converter: replace each database's
total milliseconds by average milliseconds per operation, guarded against
divide-by-zero. -/
def dbAvg (v : StatsDatabase) : StatsDatabase :=
  let v := if v.reads > 0 then { v with readMs := Int.tdiv v.readMs v.reads } else v
  if v.writes > 0 then { v with writeMs := Int.tdiv v.writeMs v.writes } else v

/-- Apply `dbAvg` to every database of a snapshot, as the converter's
single-snapshot path does. -/
def dbNormalizeSingle (s : StatsStat) : StatsStat :=
  { s with databases := s.databases.map (fun kv => (kv.1, dbAvg kv.2)) }

/-- The per-key database conversion of the converter's main loop: reads and
writes become deltas, total milliseconds become average milliseconds per
operation within the bucket. -/
def dbDelta (vcur vprev : StatsDatabase) : StatsDatabase :=
  let reads := vcur.reads - vprev.reads
  let readMs0 := vcur.readMs - vprev.readMs
  let readMs := if reads > 0 then Int.tdiv readMs0 reads else readMs0
  let writes := vcur.writes - vprev.writes
  let writeMs0 := vcur.writeMs - vprev.writeMs
  let writeMs := if writes > 0 then Int.tdiv writeMs0 writes else writeMs0
  { vcur with reads := reads, readMs := readMs, writes := writes, writeMs := writeMs }

/-- One iteration of the converter's main loop: turn the cumulative snapshot
`cur` into a bucket-relative snapshot using the next-older snapshot `next`.
Field by field this mirrors the body of the `for i` loop of
`ConvertStatsFromAbsoluteToRelative`; `cur` plays `stats[i]`, `next` plays
`stats[i+1]` (in the source `stats[i]` is mutated in place but always read
before iteration `i` modifies it, so the loop is equivalent to this map over
adjacent pairs). -/
def convertOne (bucketSecs : Int) (cur next : StatsStat) : StatsStat :=
  { cur with
    snapshotTaken := (Int.tdiv cur.snapshotTaken bucketSecs) * bucketSecs
    bucketMins := 0
    osDiskRead := wsub64 cur.osDiskRead next.osDiskRead
    osDiskWrite := wsub64 cur.osDiskWrite next.osDiskWrite
    httpConnTotal := cur.httpConnTotal - next.httpConnTotal
    httpConnReused := cur.httpConnReused - next.httpConnReused
    osNetReceived :=
      wsub64 (if next.osNetReceived > cur.osNetReceived then next.osNetReceived
              else cur.osNetReceived) next.osNetReceived
    osNetSent :=
      wsub64 (if next.osNetSent > cur.osNetSent then next.osNetSent
              else cur.osNetSent) next.osNetSent
    discoveryHandlersDeactivated :=
      cur.discoveryHandlersActivated - cur.discoveryHandlersDeactivated
    discoveryHandlersActivated :=
      cur.discoveryHandlersActivated - next.discoveryHandlersActivated
    continuousHandlersDeactivated :=
      cur.continuousHandlersActivated - cur.continuousHandlersDeactivated
    continuousHandlersActivated :=
      cur.continuousHandlersActivated - next.continuousHandlersActivated
    notificationHandlersDeactivated :=
      cur.notificationHandlersActivated - cur.notificationHandlersDeactivated
    notificationHandlersActivated :=
      cur.notificationHandlersActivated - next.notificationHandlersActivated
    ephemeralHandlersDeactivated :=
      cur.ephemeralHandlersActivated - cur.ephemeralHandlersDeactivated
    ephemeralHandlersActivated :=
      cur.ephemeralHandlersActivated - next.ephemeralHandlersActivated
    eventsEnqueued := cur.eventsEnqueued - next.eventsEnqueued
    eventsDequeued := 0
    eventsRouted := cur.eventsRouted - next.eventsRouted
    databases := cur.databases.map (fun kv =>
      match next.databases.lookup kv.1 with
      | some vprev => (kv.1, dbDelta kv.2 vprev)
      | none => kv)
    caches := cur.caches.map (fun kv =>
      match next.caches.lookup kv.1 with
      | some vprev => (kv.1, { kv.2 with invalidations := kv.2.invalidations - vprev.invalidations })
      | none => kv)
    api := cur.api.map (fun kv =>
      match next.api.lookup kv.1 with
      | some vprev => (kv.1, kv.2 - vprev)
      | none => kv)
    fatals := cur.fatals.map (fun kv =>
      match next.fatals.lookup kv.1 with
      | some vprev => (kv.1, kv.2 - vprev)
      | none => kv) }

/-- `ConvertStatsFromAbsoluteToRelative` from the watcher file: convert `N`
cumulative snapshots (most recent first) into bucket-relative snapshots.

The source first appends a zero `StatsStat` when the input is empty, then
snaps `stats[0]`'s time to the grid, then either returns the single snapshot
with only database average-ms normalization (`len == 1`), or runs the main
loop and returns `stats[0 : len-1]`. -/
def ConvertStatsFromAbsoluteToRelative (stats : List StatsStat) (bucketSecs : Int) :
    List StatsStat :=
  match stats with
  | [] => [dbNormalizeSingle (snapWhen bucketSecs {})]
  | [s0] => [dbNormalizeSingle (snapWhen bucketSecs s0)]
  | s0 :: s1 :: rest =>
      List.zipWith (convertOne bucketSecs) (snapWhen bucketSecs s0 :: s1 :: rest) (s1 :: rest)

/-! ### Basic facts about the converter -/

theorem wsub64_self (a : Nat) : wsub64 a a = 0 := by
  simp only [wsub64]
  omega

theorem wsub64_eq_sub {a b : Nat} (h : b ≤ a) (ha : a < 2 ^ 64) :
    wsub64 a b = a - b := by
  simp only [wsub64]
  omega

theorem convert_length_cons (b : Int) (s0 s1 : StatsStat) (rest : List StatsStat) :
    (ConvertStatsFromAbsoluteToRelative (s0 :: s1 :: rest) b).length = rest.length + 1 := by
  simp [ConvertStatsFromAbsoluteToRelative]

theorem convert_getD_cons (b : Int) (s0 s1 : StatsStat) (rest : List StatsStat)
    (i : Nat) (h : i < rest.length + 1) :
    (ConvertStatsFromAbsoluteToRelative (s0 :: s1 :: rest) b).getD i default
      = convertOne b ((snapWhen b s0 :: s1 :: rest).getD i default)
          ((s1 :: rest).getD i default) := by
  have hlen : i < (ConvertStatsFromAbsoluteToRelative (s0 :: s1 :: rest) b).length := by
    rw [convert_length_cons]
    omega
  have h1 : i < (snapWhen b s0 :: s1 :: rest).length := by
    simp
    omega
  have h2 : i < (s1 :: rest).length := by
    simp
    omega
  rw [List.getD_eq_getElem _ _ hlen, List.getD_eq_getElem _ _ h1, List.getD_eq_getElem _ _ h2]
  exact List.getElem_zipWith

theorem snapWhen_zero (b : Int) : snapWhen b {} = {} := by
  simp [snapWhen, Int.zero_tdiv]

theorem snapWhen_osNetReceived (b : Int) (s : StatsStat) :
    (snapWhen b s).osNetReceived = s.osNetReceived := rfl

theorem snapWhen_osNetSent (b : Int) (s : StatsStat) :
    (snapWhen b s).osNetSent = s.osNetSent := rfl

theorem convertOne_osNetReceived (b : Int) (cur next : StatsStat)
    (h : cur.osNetReceived < 2 ^ 64) :
    (convertOne b cur next).osNetReceived
      = if next.osNetReceived > cur.osNetReceived then 0
        else cur.osNetReceived - next.osNetReceived := by
  by_cases hc : next.osNetReceived > cur.osNetReceived
  · simp [convertOne, hc, wsub64_self]
  · have hle : next.osNetReceived ≤ cur.osNetReceived := by omega
    simp [convertOne, hc, wsub64_eq_sub hle h]

theorem convertOne_osNetSent (b : Int) (cur next : StatsStat)
    (h : cur.osNetSent < 2 ^ 64) :
    (convertOne b cur next).osNetSent
      = if next.osNetSent > cur.osNetSent then 0
        else cur.osNetSent - next.osNetSent := by
  by_cases hc : next.osNetSent > cur.osNetSent
  · simp [convertOne, hc, wsub64_self]
  · have hle : next.osNetSent ≤ cur.osNetSent := by omega
    simp [convertOne, hc, wsub64_eq_sub hle h]

/-- The bucket `i` of the converter's output is `convertOne` applied to the
(prep-adjusted) snapshot `i` and snapshot `i+1` of the input. -/
theorem convert_pair (b : Int) (s0 s1 : StatsStat) (rest : List StatsStat)
    (i : Nat) (hi : i < rest.length + 1) :
    (ConvertStatsFromAbsoluteToRelative (s0 :: s1 :: rest) b).getD i default
      = convertOne b ((snapWhen b s0 :: s1 :: rest).getD i default)
          ((s0 :: s1 :: rest).getD (i + 1) default) := by
  rw [convert_getD_cons b s0 s1 rest i hi, List.getD_cons_succ]

/-- The prep-adjusted entry `i` has the same net counters as input entry `i`. -/
theorem convert_cur_net (b : Int) (s0 s1 : StatsStat) (rest : List StatsStat) (i : Nat) :
    ((snapWhen b s0 :: s1 :: rest).getD i default).osNetReceived
        = ((s0 :: s1 :: rest).getD i default).osNetReceived
    ∧ ((snapWhen b s0 :: s1 :: rest).getD i default).osNetSent
        = ((s0 :: s1 :: rest).getD i default).osNetSent := by
  cases i with
  | zero => exact ⟨snapWhen_osNetReceived b s0, snapWhen_osNetSent b s0⟩
  | succ j => simp

/-- The concrete cumulative `OSNetReceived` series of scenario S3. -/
def netWrapSeries : List StatsStat :=
  [{ osNetReceived := 100 }, { osNetReceived := 200 }, { osNetReceived := 180 }]

/-- C5: for every cumulative snapshot sequence of length `N ≥ 2` and every
`i < N-1`, the delta converter sets output `i`'s `OSNetReceived` (and likewise
`OSNetSent`) to `s[i] - s[i+1]`, except that when `s[i+1] > s[i]` the current
value is lifted to the next one and the delta is zero; in particular the
cumulative `OSNetReceived` series `[100, 200, 180]` yields delta outputs
`[0, 20]`. -/
theorem claim_C5 :
    (∀ (s : List StatsStat) (b : Int) (i : Nat),
      0 < b → i + 1 < s.length →
      (s.getD i default).osNetReceived < 2 ^ 64 →
      (s.getD i default).osNetSent < 2 ^ 64 →
      ((ConvertStatsFromAbsoluteToRelative s b).getD i default).osNetReceived
          = (if (s.getD (i + 1) default).osNetReceived > (s.getD i default).osNetReceived
             then 0
             else (s.getD i default).osNetReceived - (s.getD (i + 1) default).osNetReceived) ∧
      ((ConvertStatsFromAbsoluteToRelative s b).getD i default).osNetSent
          = (if (s.getD (i + 1) default).osNetSent > (s.getD i default).osNetSent
             then 0
             else (s.getD i default).osNetSent - (s.getD (i + 1) default).osNetSent)) ∧
    (ConvertStatsFromAbsoluteToRelative netWrapSeries 300).map (·.osNetReceived) = [0, 20] := by
  constructor
  · intro s b i _hb hi hrecv hsent
    match s, hi with
    | s0 :: s1 :: rest, hi =>
      have hi' : i < rest.length + 1 := by
        simp only [List.length_cons] at hi
        omega
      obtain ⟨hcr, hcs⟩ := convert_cur_net b s0 s1 rest i
      rw [convert_pair b s0 s1 rest i hi']
      constructor
      · rw [convertOne_osNetReceived _ _ _ (by rw [hcr]; exact hrecv), hcr]
      · rw [convertOne_osNetSent _ _ _ (by rw [hcs]; exact hsent), hcs]
  · decide

/-- Witness for C5: the universal part instantiated at the S3 series,
index 0 and bucket width 300 (where the counter wraps, so the delta is 0). -/
theorem claim_C5_witness :
    ((ConvertStatsFromAbsoluteToRelative netWrapSeries 300).getD 0 default).osNetReceived = 0 := by
  have h := (claim_C5.1 netWrapSeries 300 0 (by decide) (by decide) (by decide) (by decide)).1
  rw [h]
  decide

/-- The prep step changes only the snapshot time, so the handler counters of
the pair's current element agree with those of input entry `i`. -/
theorem convert_cur_handlers (b : Int) (s0 s1 : StatsStat) (rest : List StatsStat) (i : Nat) :
    ((snapWhen b s0 :: s1 :: rest).getD i default).discoveryHandlersActivated
        = ((s0 :: s1 :: rest).getD i default).discoveryHandlersActivated
    ∧ ((snapWhen b s0 :: s1 :: rest).getD i default).discoveryHandlersDeactivated
        = ((s0 :: s1 :: rest).getD i default).discoveryHandlersDeactivated
    ∧ ((snapWhen b s0 :: s1 :: rest).getD i default).continuousHandlersActivated
        = ((s0 :: s1 :: rest).getD i default).continuousHandlersActivated
    ∧ ((snapWhen b s0 :: s1 :: rest).getD i default).continuousHandlersDeactivated
        = ((s0 :: s1 :: rest).getD i default).continuousHandlersDeactivated
    ∧ ((snapWhen b s0 :: s1 :: rest).getD i default).notificationHandlersActivated
        = ((s0 :: s1 :: rest).getD i default).notificationHandlersActivated
    ∧ ((snapWhen b s0 :: s1 :: rest).getD i default).notificationHandlersDeactivated
        = ((s0 :: s1 :: rest).getD i default).notificationHandlersDeactivated
    ∧ ((snapWhen b s0 :: s1 :: rest).getD i default).ephemeralHandlersActivated
        = ((s0 :: s1 :: rest).getD i default).ephemeralHandlersActivated
    ∧ ((snapWhen b s0 :: s1 :: rest).getD i default).ephemeralHandlersDeactivated
        = ((s0 :: s1 :: rest).getD i default).ephemeralHandlersDeactivated := by
  cases i with
  | zero => simp [snapWhen]
  | succ j => simp

/-- A concrete two-snapshot series exercising the handler conversion. -/
def handlerSeries : List StatsStat :=
  [{ discoveryHandlersActivated := 10, discoveryHandlersDeactivated := 4,
     continuousHandlersActivated := 20, continuousHandlersDeactivated := 5,
     notificationHandlersActivated := 30, notificationHandlersDeactivated := 6,
     ephemeralHandlersActivated := 40, ephemeralHandlersDeactivated := 7 },
   { discoveryHandlersActivated := 8, discoveryHandlersDeactivated := 3,
     continuousHandlersActivated := 15, continuousHandlersDeactivated := 4,
     notificationHandlersActivated := 25, notificationHandlersDeactivated := 5,
     ephemeralHandlersActivated := 33, ephemeralHandlersDeactivated := 6 }]

/-- C6: for every input of length `N ≥ 2` and every `i < N-1`, output bucket
`i` has, for each of the four handler kinds, the activated field equal to
`s[i].activated - s[i+1].activated` and the deactivated field equal to
`s[i].activated - s[i].deactivated`, both computed from the original
cumulative values of snapshot `i`. -/
theorem claim_C6 (s : List StatsStat) (b : Int) (i : Nat)
    (_hb : 0 < b) (hi : i + 1 < s.length) :
    ((ConvertStatsFromAbsoluteToRelative s b).getD i default).discoveryHandlersActivated
        = (s.getD i default).discoveryHandlersActivated
            - (s.getD (i + 1) default).discoveryHandlersActivated
    ∧ ((ConvertStatsFromAbsoluteToRelative s b).getD i default).discoveryHandlersDeactivated
        = (s.getD i default).discoveryHandlersActivated
            - (s.getD i default).discoveryHandlersDeactivated
    ∧ ((ConvertStatsFromAbsoluteToRelative s b).getD i default).continuousHandlersActivated
        = (s.getD i default).continuousHandlersActivated
            - (s.getD (i + 1) default).continuousHandlersActivated
    ∧ ((ConvertStatsFromAbsoluteToRelative s b).getD i default).continuousHandlersDeactivated
        = (s.getD i default).continuousHandlersActivated
            - (s.getD i default).continuousHandlersDeactivated
    ∧ ((ConvertStatsFromAbsoluteToRelative s b).getD i default).notificationHandlersActivated
        = (s.getD i default).notificationHandlersActivated
            - (s.getD (i + 1) default).notificationHandlersActivated
    ∧ ((ConvertStatsFromAbsoluteToRelative s b).getD i default).notificationHandlersDeactivated
        = (s.getD i default).notificationHandlersActivated
            - (s.getD i default).notificationHandlersDeactivated
    ∧ ((ConvertStatsFromAbsoluteToRelative s b).getD i default).ephemeralHandlersActivated
        = (s.getD i default).ephemeralHandlersActivated
            - (s.getD (i + 1) default).ephemeralHandlersActivated
    ∧ ((ConvertStatsFromAbsoluteToRelative s b).getD i default).ephemeralHandlersDeactivated
        = (s.getD i default).ephemeralHandlersActivated
            - (s.getD i default).ephemeralHandlersDeactivated := by
  match s, hi with
  | s0 :: s1 :: rest, hi =>
    have hi' : i < rest.length + 1 := by
      simp only [List.length_cons] at hi
      omega
    obtain ⟨h1, h2, h3, h4, h5, h6, h7, h8⟩ := convert_cur_handlers b s0 s1 rest i
    rw [convert_pair b s0 s1 rest i hi']
    refine ⟨?_, ?_, ?_, ?_, ?_, ?_, ?_, ?_⟩
    · simp only [convertOne]
      rw [h1]
    · simp only [convertOne]
      rw [h1, h2]
    · simp only [convertOne]
      rw [h3]
    · simp only [convertOne]
      rw [h3, h4]
    · simp only [convertOne]
      rw [h5]
    · simp only [convertOne]
      rw [h5, h6]
    · simp only [convertOne]
      rw [h7]
    · simp only [convertOne]
      rw [h7, h8]

/-- Witness for C6: the theorem instantiated at the concrete two-snapshot
series, checking the discovery kind numerically. -/
theorem claim_C6_witness :
    ((ConvertStatsFromAbsoluteToRelative handlerSeries 300).getD 0 default).discoveryHandlersActivated = 2
    ∧ ((ConvertStatsFromAbsoluteToRelative handlerSeries 300).getD 0 default).discoveryHandlersDeactivated = 6 := by
  have h := claim_C6 handlerSeries 300 0 (by decide) (by decide)
  rw [h.1, h.2.1]
  decide

/-- C7 (amended): `ConvertStatsFromAbsoluteToRelative` returns a one-element
output — the zero snapshot — when given an empty snapshot list (the source
appends a zero element and falls into the single-snapshot path), a
single-element output with only database average-ms normalization when given
exactly one snapshot, and exactly `N-1` per-bucket samples for `N ≥ 2`
snapshots. -/
theorem claim_C7 (s : List StatsStat) (b : Int) (_hb : 0 < b) :
    (s = [] → ConvertStatsFromAbsoluteToRelative s b = [({} : StatsStat)])
    ∧ (∀ s0, s = [s0] →
        ConvertStatsFromAbsoluteToRelative s b = [dbNormalizeSingle (snapWhen b s0)])
    ∧ (2 ≤ s.length →
        (ConvertStatsFromAbsoluteToRelative s b).length = s.length - 1) := by
  refine ⟨?_, ?_, ?_⟩
  · rintro rfl
    simp [ConvertStatsFromAbsoluteToRelative, snapWhen_zero, dbNormalizeSingle]
  · rintro s0 rfl
    rfl
  · intro hlen
    match s, hlen with
    | s0 :: s1 :: rest, _ =>
      rw [convert_length_cons]
      simp

/-- Counterexample to C7 as stated: on the empty snapshot list the converter
returns a one-element output, not an empty one. -/
theorem claim_C7_counterexample :
    (ConvertStatsFromAbsoluteToRelative [] 300).length = 1 := rfl

/-- Witness for C7 (amended): the empty-input and one-input cases at bucket
width 300. -/
theorem claim_C7_witness :
    ConvertStatsFromAbsoluteToRelative [] 300 = [({} : StatsStat)]
    ∧ ConvertStatsFromAbsoluteToRelative [({} : StatsStat)] 300
        = [dbNormalizeSingle (snapWhen 300 {})] := by
  refine ⟨(claim_C7 [] 300 (by decide)).1 rfl, (claim_C7 [({} : StatsStat)] 300 (by decide)).2.1 {} rfl⟩

/-! ## The event canary (`inboundWebCanaryHandler`, `canarySweepDevices`)

The HTTP and JSON layers are not modelled: the embedding starts from the
parsed event, assumes the canary is enabled (`Config.CanaryDisabled` false)
and that the request is a `POST`.  Event bodies are modelled as optionally
carrying the two fields the canary reads, `why` (a string) and `count`
(a number; Go stores it as a `float64` and casts to `int64`, the embedding
covers the integral counts all claims use). -/

/-- Association-list read, modelling a Go map read (missing key yields the
zero value at use sites via `Option.getD`). -/
def alGet {β : Type} : List (String × β) → String → Option β
  | [], _ => none
  | (k', v) :: t, k => if k' = k then some v else alGet t k

/-- Association-list write, modelling a Go map write: replace the value of an
existing key in place, append a missing key at the end. -/
def alSet {β : Type} : List (String × β) → String → β → List (String × β)
  | [], k, v => [(k, v)]
  | (k', v') :: t, k, v => if k' = k then (k, v) :: t else (k', v') :: alSet t k v

/-- Kernel-evaluable model of Go's `strings.HasPrefix`. -/
def strStarts (s p : String) : Bool := p.data.isPrefixOf s.data

/-- Kernel-evaluable model of Go's `strings.Contains`. -/
def strContains (s p : String) : Bool :=
  (List.range (s.data.length + 1)).any fun i => p.data.isPrefixOf (s.data.drop i)

/-- `deviceContext` from the canary file. -/
structure DeviceContext where
  sn : String := ""
  continuous : Bool := false
  warnings : Int := 0
  deriving Repr, DecidableEq, Inhabited

/-- `lastEvent` from the canary file. -/
structure LastEvent where
  sessionID : String := ""
  seqNo : Int := 0
  capturedTime : Int := 0
  receivedTime : Int := 0
  routedTime : Int := 0
  deriving Repr, DecidableEq, Inhabited

/-- The two body fields the canary reads from an event body. -/
structure CanaryBody where
  why : String := ""
  count : Int := 0
  deriving Repr, DecidableEq, Inhabited

/-- The fields of `note.Event` the canary reads. -/
structure NoteEvent where
  deviceUID : String := ""
  deviceSN : String := ""
  sessionUID : String := ""
  eventUID : String := ""
  notefileID : String := ""
  when : Int := 0
  received : Int := 0
  body : Option CanaryBody := none
  deriving Repr, DecidableEq, Inhabited

/-- The canary's two global maps (`last` and `device`), guarded by
`canaryLock` in the source. -/
structure CanaryState where
  last : List (String × LastEvent) := []
  device : List (String × DeviceContext) := []
  deriving Repr, DecidableEq, Inhabited

/-- `inboundWebCanaryHandler` from the canary file, from the point where the
event has been parsed.  `now` is `time.Now().UTC().Unix()`.  The second
component is the alert text passed to `canaryMessage`, `none` when no alert
is sent (`errstr` empty). -/
def inboundWebCanaryHandler (st : CanaryState) (e : NoteEvent) (now : Int) :
    CanaryState × Option String :=
  if e.notefileID = "_session.qo" then
    let d1 : DeviceContext :=
      match alGet st.device e.deviceUID, e.body with
      | some d, some body => { d with continuous := strContains body.why "continuous" }
      | some d, none => d
      | none, _ => {}
    ({ st with device := alSet st.device e.deviceUID { d1 with sn := e.deviceSN } }, none)
  else if e.notefileID ≠ "_temp.qo" then
    (st, none)
  else
    let t : LastEvent :=
      { sessionID := e.sessionUID
        seqNo := match e.body with
                 | some body => body.count
                 | none => 0
        capturedTime := e.when
        receivedTime := e.received
        routedTime := now }
    match alGet st.device e.deviceUID with
    | none => ({ st with last := alSet st.last e.deviceUID t }, none)
    | some d0 =>
      let d := { d0 with sn := e.deviceSN }
      let device' := alSet st.device e.deviceUID d
      let secsCapturedToReceived : Int := if strStarts d.sn "ntn" then 20 * 60 else 120
      let secsReceivedToReceived : Int := if strStarts d.sn "ntn" then 25 * 60 else 5 * 60
      let l := (alGet st.last e.deviceUID).getD {}
      let errstr : Option String :=
        if d.continuous ∧ t.sessionID ≠ l.sessionID then
          some ("continuous session dropped and reconnected: " ++ t.sessionID)
        else if t.seqNo ≠ l.seqNo + 1 then
          some ("sequence out of order (expected " ++ toString (l.seqNo + 1)
                ++ " but received " ++ toString t.seqNo ++ "): " ++ e.eventUID)
        else if t.receivedTime - t.capturedTime > secsCapturedToReceived then
          some ("event took " ++ toString (t.receivedTime - t.capturedTime)
                ++ " secs to get from notecard to notehub: " ++ e.eventUID)
        else if t.routedTime - t.receivedTime > 10 then
          some ("event took " ++ toString (t.routedTime - t.receivedTime)
                ++ " secs to be routed once it was received by notehub: " ++ e.eventUID)
        else if t.receivedTime - l.receivedTime > secsReceivedToReceived then
          some (toString (Int.tdiv (t.routedTime - t.receivedTime) 60)
                ++ " minutes between events received by notehub: " ++ e.eventUID)
        else none
      ({ last := alSet st.last e.deviceUID t, device := device' }, errstr)

/-- The two kinds of sweep emissions.  The source formats the minutes of
silence and the last-received wall-clock time into the warning text; only the
minutes argument is modelled. -/
inductive SweepMsg where
  | warning (minutes : Int)
  | lastWarning
  deriving Repr, DecidableEq

/-- The body of the `canarySweepDevices` loop over the device map.  In the
source `deviceCopy` aliases `device` (the "copy" copies the map reference),
and each due device's incremented context is written back under the lock, so
the loop is a fold over the entries. -/
def sweepList (lastm : List (String × LastEvent)) (now : Int) :
    List (String × DeviceContext) → List (String × DeviceContext) × List (String × SweepMsg)
  | [] => ([], [])
  | (uid, d) :: rest =>
      let l := (alGet lastm uid).getD {}
      let receivedInterval : Int := if strStarts d.sn "ntn" then 20 * 60 else 6 * 60
      let (rest', msgs) := sweepList lastm now rest
      if now - l.receivedTime ≥ receivedInterval then
        let d' := { d with warnings := d.warnings + 1 }
        let msg : List (String × SweepMsg) :=
          if d'.warnings < 10 then [(uid, SweepMsg.warning (Int.tdiv (now - l.receivedTime) 60))]
          else if d'.warnings = 10 then [(uid, SweepMsg.lastWarning)]
          else []
        ((uid, d') :: rest', msg ++ msgs)
      else
        ((uid, d) :: rest', msgs)

/-- `canarySweepDevices` from the canary file (canary enabled), at time
`now`.  Returns the updated state and the emissions of this run. -/
def canarySweepDevices (st : CanaryState) (now : Int) :
    CanaryState × List (String × SweepMsg) :=
  let (device', msgs) := sweepList st.last now st.device
  ({ st with device := device' }, msgs)

/-- Consecutive runs of the periodic sweep at the given times. -/
def sweepRuns (st : CanaryState) : List Int → CanaryState × List (List (String × SweepMsg))
  | [] => (st, [])
  | now :: rest =>
      let (st1, msgs) := canarySweepDevices st now
      let (st2, outs) := sweepRuns st1 rest
      (st2, msgs :: outs)

/-- The prior canary state of scenario S5: device `D` known (non-continuous,
zero warnings), last event seqNo 7 in session `S`, received at 1000. -/
def s5State : CanaryState :=
  { last := [("D", { sessionID := "S", seqNo := 7, capturedTime := 990, receivedTime := 1000 })],
    device := [("D", { sn := "canary-1" })] }

/-- The incoming `_temp.qo` delivery of scenario S5: seqNo 9, same session,
captured at 1050, received at 1060. -/
def s5Event : NoteEvent :=
  { deviceUID := "D", deviceSN := "canary-1", sessionUID := "S", eventUID := "E",
    notefileID := "_temp.qo", when := 1050, received := 1060, body := some { count := 9 } }

/-- C8: for a `_temp.qo` delivery for a device with existing canary state, at
most one alert is emitted (the handler produces at most one `errstr`), chosen
by priority R1 > R2 > R3 > R4 > R5: whenever R1 does not apply and the
sequence number is out of order, the R2 alert is the one emitted, whatever
the event's timestamps.  In scenario S5 exactly the R2 alert
"sequence out of order (expected 8 but received 9)" fires, suppressing
R3-R5. -/
theorem claim_C8 :
    (∀ (st : CanaryState) (e : NoteEvent) (now : Int) (d : DeviceContext)
        (body : CanaryBody) (l : LastEvent),
      e.notefileID = "_temp.qo" →
      alGet st.device e.deviceUID = some d →
      e.body = some body →
      alGet st.last e.deviceUID = some l →
      d.continuous = false →
      body.count ≠ l.seqNo + 1 →
      (inboundWebCanaryHandler st e now).2
        = some ("sequence out of order (expected " ++ toString (l.seqNo + 1)
                ++ " but received " ++ toString body.count ++ "): " ++ e.eventUID))
    ∧ (inboundWebCanaryHandler s5State s5Event 1075).2
        = some "sequence out of order (expected 8 but received 9): E" := by
  constructor
  · intro st e now d body l hnf hdev hbody hlast hcont hseq
    have hne : ("_temp.qo" : String) ≠ "_session.qo" := by decide
    simp only [inboundWebCanaryHandler, hnf, if_neg hne, ne_eq, not_true_eq_false,
      if_false, hdev, hbody, hlast, Option.getD_some, hcont]
    simp [hseq]
  · decide

/-- Witness for C8: the universal part applied to the S5 state and event. -/
theorem claim_C8_witness :
    (inboundWebCanaryHandler s5State s5Event 1075).2
      = some ("sequence out of order (expected " ++ toString ((7 : Int) + 1)
              ++ " but received " ++ toString (9 : Int) ++ "): " ++ "E") :=
  claim_C8.1 s5State s5Event 1075 { sn := "canary-1" } { count := 9 }
    { sessionID := "S", seqNo := 7, capturedTime := 990, receivedTime := 1000 }
    rfl rfl rfl rfl rfl (by decide)

/-- One due run of the sweep over a single non-NTN device: the warning count
increments, and the emission is decided by the new count. -/
theorem sweep_single (uid sn : String) (cont : Bool) (w : Int) (l : LastEvent) (now : Int)
    (hsn : strStarts sn "ntn" = false) (hdue : now - l.receivedTime ≥ 360) :
    canarySweepDevices
        { last := [(uid, l)], device := [(uid, ⟨sn, cont, w⟩)] } now
      = ({ last := [(uid, l)], device := [(uid, ⟨sn, cont, w + 1⟩)] },
         if w + 1 < 10 then [(uid, SweepMsg.warning (Int.tdiv (now - l.receivedTime) 60))]
         else if w + 1 = 10 then [(uid, SweepMsg.lastWarning)]
         else []) := by
  simp [canarySweepDevices, sweepList, alGet, hsn, hdue]

/-- Iterated due runs of the sweep over a single non-NTN device, for an
arbitrary starting warning count `w`: the final count is `w + #runs` and the
`k`-th run's emissions are decided by `w + k + 1`. -/
theorem sweepRuns_single_aux (uid sn : String) (cont : Bool) (l : LastEvent)
    (hsn : strStarts sn "ntn" = false) :
    ∀ (nows : List Int) (w : Int),
      (∀ now ∈ nows, now - l.receivedTime ≥ 360) →
      (sweepRuns { last := [(uid, l)], device := [(uid, ⟨sn, cont, w⟩)] } nows).1
          = { last := [(uid, l)], device := [(uid, ⟨sn, cont, w + nows.length⟩)] }
      ∧ ∀ k, k < nows.length →
          (sweepRuns { last := [(uid, l)], device := [(uid, ⟨sn, cont, w⟩)] } nows).2.getD k []
            = (if w + k + 1 < 10 then
                 [(uid, SweepMsg.warning (Int.tdiv (nows.getD k 0 - l.receivedTime) 60))]
               else if w + k + 1 = 10 then [(uid, SweepMsg.lastWarning)]
               else [])
  | [], w, _ => by simp [sweepRuns]
  | now :: rest, w, hdue => by
      have h1 := sweep_single uid sn cont w l now hsn (hdue now (by simp))
      have ih := sweepRuns_single_aux uid sn cont l hsn rest (w + 1)
        (fun x hx => hdue x (by simp [hx]))
      constructor
      · simp only [sweepRuns, h1]
        rw [ih.1]
        have hcast : w + 1 + (rest.length : Int)
            = w + (((now :: rest).length : Nat) : Int) := by
          simp only [List.length_cons]
          push_cast
          ring
        rw [hcast]
      · intro k hk
        cases k with
        | zero =>
            simp only [sweepRuns, h1]
            simp
        | succ j =>
            simp only [sweepRuns, h1, List.getD_cons_succ]
            have hj : j < rest.length := by
              simp only [List.length_cons] at hk
              omega
            rw [ih.2 j hj]
            have hcast : w + 1 + (j : Int) + 1 = w + (((j + 1 : Nat)) : Int) + 1 := by
              push_cast
              ring
            rw [← hcast]

/-- C9: for a non-NTN device whose `last.receivedTime` stays at least 6
minutes in the past, consecutive sweep runs emit a "no routed events
received" warning on each of the first 9 runs, exactly one "LAST WARNING
before silence!" on the 10th run, and nothing on later runs, while the
per-device warning counter increments on every due run. -/
theorem claim_C9 (uid sn : String) (cont : Bool) (l : LastEvent) (nows : List Int) (k : Nat)
    (hsn : strStarts sn "ntn" = false)
    (hdue : ∀ now ∈ nows, now - l.receivedTime ≥ 360)
    (hk : k < nows.length) :
    ((sweepRuns { last := [(uid, l)],
                  device := [(uid, { sn := sn, continuous := cont, warnings := 0 })] }
        nows).2.getD k []
      = (if k < 9 then
           [(uid, SweepMsg.warning (Int.tdiv (nows.getD k 0 - l.receivedTime) 60))]
         else if k = 9 then [(uid, SweepMsg.lastWarning)]
         else []))
    ∧ (sweepRuns { last := [(uid, l)],
                   device := [(uid, { sn := sn, continuous := cont, warnings := 0 })] }
        nows).1.device
      = [(uid, { sn := sn, continuous := cont, warnings := (nows.length : Int) })] := by
  obtain ⟨hstate, hout⟩ := sweepRuns_single_aux uid sn cont l hsn nows 0 hdue
  constructor
  · rw [hout k hk]
    by_cases h9 : k < 9
    · rw [if_pos (by omega), if_pos h9]
    · by_cases h10 : k = 9
      · rw [if_neg (by omega), if_pos (by omega), if_neg h9, if_pos h10]
      · rw [if_neg (by omega), if_neg (by omega), if_neg h9, if_neg h10]
  · rw [hstate]
    simp

/-- The sweep times of scenario S6: eleven due runs, one minute apart. -/
def s6Times : List Int :=
  [1400, 1460, 1520, 1580, 1640, 1700, 1760, 1820, 1880, 1940, 2000]

/-- Witness for C9: eleven due runs for a non-NTN device last heard at 1000;
the 10th run (index 9) emits exactly the final warning. -/
theorem claim_C9_witness :
    (sweepRuns { last := [("D", { receivedTime := 1000 })],
                 device := [("D", { sn := "canary-1", continuous := false, warnings := 0 })] }
        s6Times).2.getD 9 []
      = [("D", SweepMsg.lastWarning)] := by
  have h := (claim_C9 "D" "canary-1" false { receivedTime := 1000 } s6Times 9
    (by decide) (by decide) (by decide)).1
  rw [h]
  decide

/-- C10: a `_temp.qo` delivery for a device absent from the device map emits
no alert, whatever its sequence number, session or timestamps; it only
records the event as the device's last event. -/
theorem claim_C10 (st : CanaryState) (e : NoteEvent) (now : Int)
    (hnf : e.notefileID = "_temp.qo")
    (hdev : alGet st.device e.deviceUID = none) :
    (inboundWebCanaryHandler st e now).2 = none
    ∧ (inboundWebCanaryHandler st e now).1.device = st.device
    ∧ (inboundWebCanaryHandler st e now).1.last
        = alSet st.last e.deviceUID
            { sessionID := e.sessionUID
              seqNo := match e.body with
                       | some body => body.count
                       | none => 0
              capturedTime := e.when
              receivedTime := e.received
              routedTime := now } := by
  have hne : ("_temp.qo" : String) ≠ "_session.qo" := by decide
  simp [inboundWebCanaryHandler, hnf, if_neg hne, hdev]

/-- Witness for C10: a delivery for an unknown device on the empty state. -/
theorem claim_C10_witness :
    (inboundWebCanaryHandler { last := [], device := [] }
      { deviceUID := "X", notefileID := "_temp.qo", when := 1050, received := 1060,
        body := some { count := 99 } } 2000).2 = none :=
  (claim_C10 { last := [], device := [] }
    { deviceUID := "X", notefileID := "_temp.qo", when := 1050, received := 1060,
      body := some { count := 99 } } 2000 rfl rfl).1

/-! ## The bucket grid store (`statsVerify`, `uStatsAdd`)

The global `stats` map (host name to `HostStats`) is modelled as an
association list.  A Go `HostStats` value copied out of the map shares its
`Stats` map with the stored value, so mutations of `hs.Stats` (entry creation,
slice replacement, in-place bucket writes) are visible in the store even when
`uStatsAdd` returns early, while scalar fields (`Time`) written on the local
copy are not.  The embedding reproduces this: an early return stores the
mutated series map back under the host unchanged otherwise, except when the
stored `Stats` was `nil` (then the mutations happened on a fresh map nobody
retains).  A run that executes the final `stats[hostname] = hs` is marked
`completed`. -/

/-- A host's per-service-instance series map (`map[string][]StatsStat`).
`none` models a `nil` Go map. -/
abbrev SiidMap := List (String × List StatsStat)

/-- `HostStats` from the stats file. -/
structure HostStats where
  name : String := ""
  addr : String := ""
  time : Int := 0
  bucketMins : Int := 0
  stats : Option SiidMap := none
  deriving Repr, DecidableEq, Inhabited

/-- The outcome of one `uStatsAdd` call: the global stats map after the call,
the two results (`added`, `addedStats`), and whether the run reached the
final `stats[hostname] = hs` store.  A Go panic is the `none` of the
surrounding `Option`. -/
structure AddResult where
  stats : List (String × HostStats)
  added : Nat
  addedStats : SiidMap
  completed : Bool
  deriving Repr, DecidableEq, Inhabited

/-- `statsVerify` from the stats file: reset the host row when the recorded
service version differs. -/
def statsVerify (stats0 : List (String × HostStats)) (versions : List (String × String))
    (hostname hostaddr serviceVersion : String) (bucketSecs : Int) :
    List (String × HostStats) × List (String × String) :=
  if serviceVersion ≠ (alGet versions hostname).getD "" then
    (alSet stats0 hostname
       { name := hostname, addr := hostaddr, bucketMins := Int.tdiv bucketSecs 60 },
     alSet versions hostname serviceVersion)
  else
    (stats0, versions)

/-- The result of the first loop of `uStatsAdd` (map-entry creation plus the
uniformity scan of the incoming series). -/
inductive ScanResult where
  | panic
  | fail (m : SiidMap)
  | ok (m : SiidMap) (buckets mostRecent leastRecent : Int)
  deriving Repr, DecidableEq

/-- The first loop of `uStatsAdd`: create an empty stored series for every
incoming SIID that has none, take `buckets`/`mostRecentTime` from the first
incoming series, and abort on a series whose length disagrees.  Reading
`sis[0]` of an empty first series panics.  The source also compares every
series' `[0].SnapshotTaken` against `mostRecentTime`, but that branch only
prints a diagnostic and does not return, so it has no effect on the state
and is not modelled. -/
def scanIncoming (bucketSecs : Int) :
    SiidMap → List (String × List StatsStat) → Int → Int → Int → ScanResult
  | m, [], buckets, mostRecent, leastRecent => .ok m buckets mostRecent leastRecent
  | m, (siid, sis) :: rest, buckets, mostRecent, leastRecent =>
      let m := if alGet m siid = none then alSet m siid [] else m
      if buckets = 0 then
        match sis with
        | [] => .panic
        | s0 :: _ =>
            scanIncoming bucketSecs m rest (sis.length : Int) s0.snapshotTaken
              (s0.snapshotTaken - (sis.length : Int) * bucketSecs)
      else
        if (sis.length : Int) ≠ buckets then .fail m
        else scanIncoming bucketSecs m rest buckets mostRecent leastRecent

/-- `make([]StatsStat, count)` followed by the descending `SnapshotTaken`
initialization `z[i].SnapshotTaken = base - bucketSecs*i`. -/
def placeholders (count base bucketSecs : Int) : List StatsStat :=
  (List.range count.toNat).map
    (fun (i : Nat) => { snapshotTaken := base - bucketSecs * (i : Int) })

/-- The front-extension step of `uStatsAdd`: when the incoming window is more
recent than the host's base time, prepend placeholder buckets to every stored
series and advance the base time. -/
def frontExtend (bucketSecs mostRecent time : Int) (m : SiidMap) : SiidMap × Int :=
  if mostRecent > time then
    (m.map (fun kv =>
       (kv.1, placeholders (Int.tdiv (mostRecent - time) bucketSecs) mostRecent bucketSecs
                ++ kv.2)),
     mostRecent)
  else (m, time)

/-- The tail-extension step for one stored series: when its oldest bucket is
newer than the incoming window's oldest time, append placeholder buckets down
to it. -/
def tailExtendSeries (bucketSecs time leastRecent : Int) (sis : List StatsStat) :
    List StatsStat :=
  let hsLeast := time - (sis.length : Int) * bucketSecs
  if hsLeast > leastRecent then
    sis ++ placeholders (Int.tdiv (hsLeast - leastRecent) bucketSecs) hsLeast bucketSecs
  else sis

/-- The tail-extension loop of `uStatsAdd` over all stored series. -/
def tailExtend (bucketSecs time leastRecent : Int) (m : SiidMap) : SiidMap :=
  m.map (fun kv => (kv.1, tailExtendSeries bucketSecs time leastRecent kv.2))

/-- The post-extension sanity loop of `uStatsAdd`: every stored series must
start at the base time, the base time must not be older than the incoming
window, the first series fixes the common length and must cover the window,
and later series must match that length.  Reading `sis[0]` of an empty series
panics (`none`); a failed check is `some false`. -/
def sanityCheck (bucketSecs time mostRecent leastRecent : Int) :
    SiidMap → Int → Option Bool
  | [], _ => some true
  | (_, sis) :: rest, hsBuckets =>
      match sis with
      | [] => none
      | s0 :: _ =>
          if time ≠ s0.snapshotTaken then some false
          else if time < mostRecent then some false
          else if hsBuckets = 0 then
            if time - bucketSecs * (sis.length : Int) > leastRecent then some false
            else sanityCheck bucketSecs time mostRecent leastRecent rest (sis.length : Int)
          else if (sis.length : Int) ≠ hsBuckets then some false
          else sanityCheck bucketSecs time mostRecent leastRecent rest hsBuckets

/-- The inner assignment loop of `uStatsAdd` for one incoming series: slot
each incoming bucket at its index below the base time.  Out-of-bounds indices
and overwrites of a non-blank stored bucket and incoming blank buckets return
early (the boolean is false); an index equal to the length passes the source's
bounds check and panics on the subsequent read. -/
def assignSeries (bucketSecs mostRecent : Int) (siid : String) :
    SiidMap → List StatsStat → List StatsStat → Nat →
    Option (SiidMap × List StatsStat × Nat × Bool)
  | m, [], newStats, added => some (m, newStats, added, true)
  | m, snew :: rest, newStats, added =>
      let sis := (alGet m siid).getD []
      let i := Int.tdiv (mostRecent - snew.snapshotTaken) bucketSecs
      if i < 0 ∨ i > (sis.length : Int) then some (m, newStats, added, false)
      else if i = (sis.length : Int) then none
      else if (sis.getD i.toNat default).osMemTotal ≠ 0 then some (m, newStats, added, false)
      else if snew.osMemTotal = 0 then some (m, newStats, added, false)
      else
        assignSeries bucketSecs mostRecent siid (alSet m siid (sis.set i.toNat snew))
          rest (newStats ++ [snew]) (added + 1)

/-- The assignment loop of `uStatsAdd` over all incoming series.  A series'
collected `newStats` enter `addedStats` only when its inner loop finishes. -/
def assignAll (bucketSecs mostRecent : Int) :
    SiidMap → List (String × List StatsStat) → Nat → SiidMap →
    Option (SiidMap × Nat × SiidMap × Bool)
  | m, [], added, addedStats => some (m, added, addedStats, true)
  | m, (siid, sis) :: rest, added, addedStats =>
      match assignSeries bucketSecs mostRecent siid m sis [] added with
      | none => none
      | some (m', newStats, added', finished) =>
          if finished then
            assignAll bucketSecs mostRecent m' rest added'
              (if newStats.length > 0 then alSet addedStats siid newStats else addedStats)
          else some (m', added', addedStats, false)

/-- The stored state after an early return: the host row keeps its scalar
fields but sees the mutated series map, unless its stored map was `nil` (then
the mutations happened on a fresh unreachable map). -/
def earlyState (stats0 : List (String × HostStats)) (hostname : String)
    (origHS : HostStats) (m : SiidMap) : List (String × HostStats) :=
  if origHS.stats = none then stats0
  else alSet stats0 hostname { origHS with stats := some m }

/-- `uStatsAdd` from the stats file: merge the incoming per-SIID series into
the host's grid.  The `hostaddr` parameter is unused, as in the source.  The
`s == nil` early exit is not modelled (the embedding passes concrete maps). -/
def uStatsAdd (stats0 : List (String × HostStats)) (hostname : String) (_hostaddr : String)
    (s : List (String × List StatsStat)) : Option AddResult :=
  let origHS := (alGet stats0 hostname).getD {}
  let m0 := origHS.stats.getD []
  let bucketSecs := origHS.bucketMins * 60
  if origHS.bucketMins = 0 then
    some { stats := stats0, added := 0, addedStats := [], completed := false }
  else
    match scanIncoming bucketSecs m0 s 0 0 0 with
    | .panic => none
    | .fail m => some { stats := earlyState stats0 hostname origHS m,
                        added := 0, addedStats := [], completed := false }
    | .ok m1 _buckets mostRecent leastRecent =>
        let time0 := if origHS.time = 0 then mostRecent else origHS.time
        let fr := frontExtend bucketSecs mostRecent time0 m1
        let m3 := tailExtend bucketSecs fr.2 leastRecent fr.1
        match sanityCheck bucketSecs fr.2 mostRecent leastRecent m3 0 with
        | none => none
        | some false => some { stats := earlyState stats0 hostname origHS m3,
                               added := 0, addedStats := [], completed := false }
        | some true =>
            match assignAll bucketSecs mostRecent m3 s 0 [] with
            | none => none
            | some (m4, added, addedStats, finished) =>
                if finished then
                  some { stats := alSet stats0 hostname
                                    { origHS with time := fr.2, stats := some m4 },
                         added := added, addedStats := addedStats, completed := true }
                else
                  some { stats := earlyState stats0 hostname origHS m4,
                         added := added, addedStats := addedStats, completed := false }

/-- The stored series of one SIID of one host (empty when absent). -/
def seriesOf (st : List (String × HostStats)) (hostname siid : String) : List StatsStat :=
  (alGet (((alGet st hostname).getD {}).stats.getD []) siid).getD []

/-! ### Association-list facts -/

theorem alGet_mem {β : Type} {m : List (String × β)} {k : String} {v : β}
    (h : alGet m k = some v) : (k, v) ∈ m := by
  induction m with
  | nil => simp [alGet] at h
  | cons hd tl ih =>
      obtain ⟨k', v'⟩ := hd
      simp only [alGet] at h
      split at h
      · rename_i heq
        injection h with h
        subst h
        subst heq
        exact List.mem_cons_self _ _
      · exact List.mem_cons_of_mem _ (ih h)

theorem mem_alSet {β : Type} {m : List (String × β)} {k : String} {v : β} {e : String × β}
    (h : e ∈ alSet m k v) : e ∈ m ∨ e = (k, v) := by
  induction m with
  | nil =>
      simp only [alSet, List.mem_singleton] at h
      exact Or.inr h
  | cons hd tl ih =>
      obtain ⟨k', v'⟩ := hd
      simp only [alSet] at h
      split at h
      · rcases List.mem_cons.mp h with h | h
        · exact Or.inr h
        · exact Or.inl (List.mem_cons_of_mem _ h)
      · rcases List.mem_cons.mp h with h | h
        · exact Or.inl (h ▸ List.mem_cons_self _ _)
        · rcases ih h with h | h
          · exact Or.inl (List.mem_cons_of_mem _ h)
          · exact Or.inr h

theorem alGet_alSet_self {β : Type} (m : List (String × β)) (k : String) (v : β) :
    alGet (alSet m k v) k = some v := by
  induction m with
  | nil => simp [alSet, alGet]
  | cons hd tl ih =>
      obtain ⟨k', v'⟩ := hd
      by_cases hk : k' = k
      · subst hk
        simp [alSet, alGet]
      · simp [alSet, alGet, hk, ih]

theorem alGet_alSet_ne {β : Type} (m : List (String × β)) (k k' : String) (v : β)
    (h : k ≠ k') : alGet (alSet m k v) k' = alGet m k' := by
  induction m with
  | nil => simp [alSet, alGet, h]
  | cons hd tl ih =>
      obtain ⟨k'', v''⟩ := hd
      by_cases hk : k'' = k
      · subst hk
        simp [alSet, alGet, h]
      · by_cases hk' : k'' = k'
        · subst hk'
          simp [alSet, alGet, hk]
        · simp [alSet, alGet, hk, hk', ih]

theorem alGet_mapVal {β γ : Type} (f : β → γ) (m : List (String × β)) (k : String) :
    alGet (m.map (fun kv => (kv.1, f kv.2))) k = (alGet m k).map f := by
  induction m with
  | nil => simp [alGet]
  | cons hd tl ih =>
      obtain ⟨k', v'⟩ := hd
      by_cases hk : k' = k
      · subst hk
        simp [alGet]
      · simp [alGet, hk, ih]

/-! ### Real buckets survive `uStatsAdd` (towards C3)

The assignment loop writes only slots whose stored bucket is blank
(`OSMemTotal == 0`) and extension only prepends or appends placeholders, so
every real stored bucket is still in its series after any `uStatsAdd`. -/

/-- `RealKept m m'`: every real bucket of every series of `m` is still a
member of the same SIID's series in `m'`. -/
def RealKept (m m' : SiidMap) : Prop :=
  ∀ (siid : String) (bkt : StatsStat), bkt.osMemTotal ≠ 0 →
    bkt ∈ (alGet m siid).getD [] → bkt ∈ (alGet m' siid).getD []

theorem realKept_refl (m : SiidMap) : RealKept m m := fun _ _ _ h => h

theorem realKept_trans {a b c : SiidMap} (h1 : RealKept a b) (h2 : RealKept b c) :
    RealKept a c :=
  fun siid bkt hr hm => h2 siid bkt hr (h1 siid bkt hr hm)

theorem realKept_ensure (m : SiidMap) (siid : String) :
    RealKept m (if alGet m siid = none then alSet m siid [] else m) := by
  split
  · rename_i hnone
    intro x bkt hreal hmem
    by_cases hx : siid = x
    · subst hx
      rw [hnone] at hmem
      simp at hmem
    · rw [alGet_alSet_ne _ _ _ _ hx]
      exact hmem
  · exact realKept_refl m

/-- The series map carried by a non-panicking scan result. -/
def scanMap : ScanResult → Option SiidMap
  | .panic => none
  | .fail m => some m
  | .ok m _ _ _ => some m

theorem scan_realKept (b : Int) :
    ∀ (s : List (String × List StatsStat)) (m : SiidMap) (bu mr lr : Int) (m' : SiidMap),
      scanMap (scanIncoming b m s bu mr lr) = some m' → RealKept m m'
  | [], m, bu, mr, lr, m' => by
      intro h
      simp only [scanIncoming, scanMap, Option.some_inj] at h
      subst h
      exact realKept_refl m
  | (siid, sis) :: rest, m, bu, mr, lr, m' => by
      intro h
      simp only [scanIncoming] at h
      have hens := realKept_ensure m siid
      split at h
      · split at h
        · simp [scanMap] at h
        · exact realKept_trans hens (scan_realKept b rest _ _ _ _ _ h)
      · split at h
        · simp only [scanMap, Option.some_inj] at h
          subst h
          exact hens
        · exact realKept_trans hens (scan_realKept b rest _ _ _ _ _ h)

theorem front_realKept (b mr t : Int) (m : SiidMap) :
    RealKept m (frontExtend b mr t m).1 := by
  intro siid bkt hreal hmem
  simp only [frontExtend]
  split
  · simp only [alGet_mapVal]
    cases halGet : alGet m siid with
    | none =>
        rw [halGet] at hmem
        simp at hmem
    | some sis =>
        rw [halGet] at hmem
        simp only [Option.getD_some] at hmem
        simp only [Option.map_some', Option.getD_some]
        exact List.mem_append_right _ hmem
  · exact hmem

theorem tail_realKept (b t lr : Int) (m : SiidMap) :
    RealKept m (tailExtend b t lr m) := by
  intro siid bkt hreal hmem
  simp only [tailExtend, alGet_mapVal]
  cases halGet : alGet m siid with
  | none =>
      rw [halGet] at hmem
      simp at hmem
  | some sis =>
      rw [halGet] at hmem
      simp only [Option.getD_some] at hmem
      simp only [Option.map_some', Option.getD_some, tailExtendSeries]
      split
      · exact List.mem_append_left _ hmem
      · exact hmem

theorem set_keep {sis : List StatsStat} {j : Nat} {snew bkt : StatsStat}
    (hreal : bkt.osMemTotal ≠ 0) (hj : j < sis.length)
    (hz : (sis.getD j default).osMemTotal = 0) (hmem : bkt ∈ sis) :
    bkt ∈ sis.set j snew := by
  obtain ⟨n, hn, hget⟩ := List.mem_iff_getElem.mp hmem
  have hne : j ≠ n := by
    intro heq
    subst heq
    rw [List.getD_eq_getElem _ _ hj, hget] at hz
    exact hreal hz
  refine List.mem_iff_getElem.mpr ⟨n, ?_, ?_⟩
  · rw [List.length_set]
    exact hn
  · rw [List.getElem_set_ne hne]
    exact hget

theorem realKept_write {m : SiidMap} {siid : String} {snew : StatsStat} {j : Nat}
    (hj : j < ((alGet m siid).getD []).length)
    (hz : (((alGet m siid).getD []).getD j default).osMemTotal = 0) :
    RealKept m (alSet m siid (((alGet m siid).getD []).set j snew)) := by
  intro x bkt hreal hmem
  by_cases hx : siid = x
  · subst hx
    rw [alGet_alSet_self]
    simp only [Option.getD_some]
    exact set_keep hreal hj hz hmem
  · rw [alGet_alSet_ne _ _ _ _ hx]
    exact hmem

theorem assignSeries_realKept (b mr : Int) (siid : String) :
    ∀ (sser : List StatsStat) (m : SiidMap) (ns : List StatsStat) (a : Nat)
      (m' : SiidMap) (ns' : List StatsStat) (a' : Nat) (fino : Bool),
      assignSeries b mr siid m sser ns a = some (m', ns', a', fino) → RealKept m m'
  | [], m, ns, a, m', ns', a', fino => by
      intro h
      simp only [assignSeries, Option.some_inj, Prod.mk.injEq] at h
      obtain ⟨rfl, -, -, -⟩ := h
      exact realKept_refl m
  | snew :: rest, m, ns, a, m', ns', a', fino => by
      intro h
      simp only [assignSeries] at h
      split at h
      · simp only [Option.some_inj, Prod.mk.injEq] at h
        obtain ⟨rfl, -, -, -⟩ := h
        exact realKept_refl m
      · split at h
        · exact absurd h (by simp)
        · split at h
          · simp only [Option.some_inj, Prod.mk.injEq] at h
            obtain ⟨rfl, -, -, -⟩ := h
            exact realKept_refl m
          · split at h
            · simp only [Option.some_inj, Prod.mk.injEq] at h
              obtain ⟨rfl, -, -, -⟩ := h
              exact realKept_refl m
            · rename_i hbound hne hcur hblank
              have hj : (Int.tdiv (mr - snew.snapshotTaken) b).toNat
                  < ((alGet m siid).getD []).length := by
                omega
              have hz : (((alGet m siid).getD []).getD
                  (Int.tdiv (mr - snew.snapshotTaken) b).toNat default).osMemTotal = 0 := by
                omega
              exact realKept_trans (realKept_write hj hz)
                (assignSeries_realKept b mr siid rest _ _ _ _ _ _ _ h)

theorem assignAll_realKept (b mr : Int) :
    ∀ (s : List (String × List StatsStat)) (m : SiidMap) (a : Nat) (acc : SiidMap)
      (m' : SiidMap) (a' : Nat) (acc' : SiidMap) (fino : Bool),
      assignAll b mr m s a acc = some (m', a', acc', fino) → RealKept m m'
  | [], m, a, acc, m', a', acc', fino => by
      intro h
      simp only [assignAll, Option.some_inj, Prod.mk.injEq] at h
      obtain ⟨rfl, -, -, -⟩ := h
      exact realKept_refl m
  | (siid, sser) :: rest, m, a, acc, m', a', acc', fino => by
      intro h
      simp only [assignAll] at h
      cases hs : assignSeries b mr siid m sser [] a with
      | none =>
          rw [hs] at h
          simp at h
      | some out =>
          obtain ⟨m1, ns1, a1, fin1⟩ := out
          rw [hs] at h
          have hk1 : RealKept m m1 := assignSeries_realKept b mr siid sser m [] a _ _ _ _ hs
          by_cases hfin : fin1 = true
          · subst hfin
            simp only [if_true] at h
            exact realKept_trans hk1 (assignAll_realKept b mr rest m1 _ _ _ _ _ _ h)
          · rw [Bool.not_eq_true] at hfin
            subst hfin
            simp only [Bool.false_eq_true, if_false, Option.some_inj, Prod.mk.injEq] at h
            obtain ⟨rfl, -, -, -⟩ := h
            exact hk1

theorem mem_earlyState {stats0 : List (String × HostStats)} {hostname siid : String}
    (origHS : HostStats) {mX : SiidMap} {bkt : StatsStat}
    (hk : RealKept (origHS.stats.getD []) mX)
    (hreal : bkt.osMemTotal ≠ 0)
    (hmem : bkt ∈ (alGet (origHS.stats.getD []) siid).getD []) :
    bkt ∈ seriesOf (earlyState stats0 hostname origHS mX) hostname siid := by
  simp only [seriesOf, earlyState]
  split
  · rename_i hnil
    rw [hnil] at hmem
    simp [alGet] at hmem
  · rw [alGet_alSet_self]
    simp only [Option.getD_some]
    exact hk siid bkt hreal hmem

theorem mem_finalState {stats0 : List (String × HostStats)} {hostname siid : String}
    (origHS : HostStats) {tX : Int} {mX : SiidMap} {bkt : StatsStat}
    (hk : RealKept (origHS.stats.getD []) mX)
    (hreal : bkt.osMemTotal ≠ 0)
    (hmem : bkt ∈ (alGet (origHS.stats.getD []) siid).getD []) :
    bkt ∈ seriesOf (alSet stats0 hostname { origHS with time := tX, stats := some mX })
        hostname siid := by
  simp only [seriesOf]
  rw [alGet_alSet_self]
  simp only [Option.getD_some]
  exact hk siid bkt hreal hmem

/-- The empty host of scenarios S1/S2, as `statsVerify` creates it for a
fresh service version with 300-second buckets. -/
def s2Host0 : List (String × HostStats) := (statsVerify [] [] "h" "a" "v1" 300).1

/-- The S1 incoming map: one series for SIID `A` with two real samples. -/
def s2Incoming1 : List (String × List StatsStat) :=
  [("A", [{ snapshotTaken := 1700000000, osMemTotal := 1024 },
          { snapshotTaken := 1699999700, osMemTotal := 1024 }])]

/-- The grid after the S1 add. -/
def s2State1 : List (String × HostStats) :=
  (((uStatsAdd s2Host0 "h" "a" s2Incoming1).map (·.stats)).getD [])

/-- The S2 incoming map: one newer real sample for SIID `A`. -/
def s2Incoming2 : List (String × List StatsStat) :=
  [("A", [{ snapshotTaken := 1700000300, osMemTotal := 1024 }])]

/-- The S2 add on top of the S1 grid. -/
def s2Add2 : Option AddResult := uStatsAdd s2State1 "h" "a" s2Incoming2

/-- C3: `uStatsAdd` never overwrites a stored real bucket (`OSMemTotal ≠ 0`)
with a placeholder — in fact every real stored bucket is still a member of
its series after any call, panicking runs excluded; and in scenario S2 the
add of the newer sample extends series `A` to length 3 with host time
1700000300, the new sample at index 0 and the prior real sample (memTotal
1024, when 1700000000) retained at index 1. -/
theorem claim_C3 :
    (∀ (stats0 : List (String × HostStats)) (hostname hostaddr : String)
        (s : List (String × List StatsStat)) (r : AddResult) (siid : String) (bkt : StatsStat),
      uStatsAdd stats0 hostname hostaddr s = some r →
      bkt.osMemTotal ≠ 0 →
      bkt ∈ seriesOf stats0 hostname siid →
      bkt ∈ seriesOf r.stats hostname siid)
    ∧ (s2Add2.map fun r => (r.completed, r.added)) = some (true, 1)
    ∧ (s2Add2.map fun r =>
        (seriesOf r.stats "h" "A").map (fun x => (x.snapshotTaken, x.osMemTotal)))
      = some [(1700000300, 1024), (1700000000, 1024), (1699999700, 1024)]
    ∧ (s2Add2.map fun r => ((alGet r.stats "h").getD {}).time) = some 1700000300 := by
  refine ⟨?_, by decide, by decide, by decide⟩
  intro stats0 hostname hostaddr s r siid bkt hr hreal hmem
  simp only [seriesOf] at hmem
  simp only [uStatsAdd] at hr
  split at hr
  · simp only [Option.some_inj] at hr
    subst hr
    simpa [seriesOf] using hmem
  · split at hr
    · simp at hr
    · rename_i m1 hscan
      simp only [Option.some_inj] at hr
      subst hr
      refine mem_earlyState _ ?_ hreal hmem
      exact scan_realKept _ _ _ _ _ _ _ (by rw [hscan]; rfl)
    · rename_i m1 bu mr lr hscan
      split at hr
      · simp at hr
      · rename_i hsan
        simp only [Option.some_inj] at hr
        subst hr
        refine mem_earlyState _ ?_ hreal hmem
        refine realKept_trans (scan_realKept _ _ _ _ _ _ _ (by rw [hscan]; rfl)) ?_
        exact realKept_trans (front_realKept _ _ _ _) (tail_realKept _ _ _ _)
      · rename_i hsan
        split at hr
        · simp at hr
        · rename_i m4 a4 acc4 fin4 hassign
          have hk4 : RealKept (((alGet stats0 hostname).getD {}).stats.getD []) m4 := by
            refine realKept_trans ?_ (assignAll_realKept _ _ _ _ _ _ _ _ _ _ hassign)
            refine realKept_trans (scan_realKept _ _ _ _ _ _ _ (by rw [hscan]; rfl)) ?_
            exact realKept_trans (front_realKept _ _ _ _) (tail_realKept _ _ _ _)
          split at hr
          · simp only [Option.some_inj] at hr
            subst hr
            exact mem_finalState _ hk4 hreal hmem
          · simp only [Option.some_inj] at hr
            subst hr
            exact mem_earlyState _ hk4 hreal hmem

/-- Witness for C3: the S1 index-0 real sample is still in series `A` after
the S2 add. -/
theorem claim_C3_witness :
    ({ snapshotTaken := 1700000000, osMemTotal := 1024 } : StatsStat)
      ∈ seriesOf (s2Add2.getD default).stats "h" "A" :=
  claim_C3.1 s2State1 "h" "a" s2Incoming2 (s2Add2.getD default) "A"
    { snapshotTaken := 1700000000, osMemTotal := 1024 }
    (by decide) (by decide) (by decide)

/-! ### C4: there is no 48-hour trim -/

/-- An empty host with two-day (172800-second) buckets. -/
def c4Host0 : List (String × HostStats) := (statsVerify [] [] "h" "a" "v1" 172800).1

/-- Two real samples one bucket apart at the two-day bucket width. -/
def c4Incoming : List (String × List StatsStat) :=
  [("A", [{ snapshotTaken := 345600, osMemTotal := 1 },
          { snapshotTaken := 172800, osMemTotal := 1 }])]

/-- C4 is violated by the code: `uStatsAdd` performs no tail trimming at all,
so a single completed add leaves series `A` with 2 entries although
`48*60*60 / bucketSecs = 1` at this bucket width. -/
theorem claim_C4_code_bug :
    ((uStatsAdd c4Host0 "h" "a" c4Incoming).map
        fun r => (r.completed, (seriesOf r.stats "h" "A").length))
      = some (true, 2)
    ∧ Int.tdiv (48 * 60 * 60) (((alGet c4Host0 "h").getD {}).bucketMins * 60) = 1 :=
  ⟨by decide, by decide⟩

/-! ### C1: the stated invariant fails for unaligned incoming buckets -/

/-- An incoming series whose second bucket is 400 seconds (not one bucket
width) older than the first. -/
def c1Incoming : List (String × List StatsStat) :=
  [("A", [{ snapshotTaken := 1000, osMemTotal := 1024 },
          { snapshotTaken := 600, osMemTotal := 1024 }])]

/-- Counterexample to C1 as stated: on the empty 300-second-bucket host the
unaligned add reaches its assignment phase and completes, yet leaves
consecutive bucket times 1000 and 600, whose difference 400 is not the bucket
width 300. -/
theorem claim_C1_counterexample :
    ((uStatsAdd s2Host0 "h" "a" c1Incoming).map
        fun r => (r.completed,
          (seriesOf r.stats "h" "A").map (·.snapshotTaken),
          ((alGet r.stats "h").getD {}).bucketMins * 60))
      = some (true, [1000, 600], 300)
    ∧ (1000 : Int) - 600 ≠ 300 :=
  ⟨by decide, by decide⟩

/-! ### C2: what a non-uniform incoming map actually does -/

/-- The first add for the C2 scenario: one real sample at 1000. -/
def c2Incoming1 : List (String × List StatsStat) :=
  [("A", [{ snapshotTaken := 1000, osMemTotal := 1024 }])]

/-- The grid after that add. -/
def c2State1 : List (String × HostStats) :=
  (((uStatsAdd s2Host0 "h" "a" c2Incoming1).map (·.stats)).getD [])

/-- An incoming map whose two series agree in length but disagree in their
index-0 snapshot time. -/
def c2Incoming2 : List (String × List StatsStat) :=
  [("A", [{ snapshotTaken := 1300, osMemTotal := 1024 }]),
   ("B", [{ snapshotTaken := 1000, osMemTotal := 1024 }])]

/-- The add of that map. -/
def c2Add2 : Option AddResult := uStatsAdd c2State1 "h" "a" c2Incoming2

/-- Counterexample to C2 as stated: the two incoming series agree in length
and disagree in `[0].when`; the add does return `added = 0`, but the stored
stats are not left unchanged: series `A` grows from 1 to 2 entries (a
placeholder is prepended) and an empty-backed series `B` is created. -/
theorem claim_C2_counterexample :
    (c2Incoming2.map fun kv => kv.2.length) = [1, 1]
    ∧ (c2Incoming2.map fun kv => (kv.2.getD 0 default).snapshotTaken) = [1300, 1000]
    ∧ (c2Add2.map fun r => r.added) = some 0
    ∧ seriesOf c2State1 "h" "A" = [{ snapshotTaken := 1000, osMemTotal := 1024 }]
    ∧ alGet (((alGet c2State1 "h").getD {}).stats.getD []) "B" = none
    ∧ (c2Add2.map fun r => (seriesOf r.stats "h" "A").length) = some 2
    ∧ (c2Add2.map fun r => (seriesOf r.stats "h" "B").length) = some 1 :=
  ⟨by decide, by decide, by decide, by decide, by decide, by decide, by decide⟩

/-- The uniformity scan aborts once it meets a series whose length differs
from the first series' length. -/
theorem scan_fail_of_disagree (b : Int) :
    ∀ (rest : List (String × List StatsStat)) (m : SiidMap) (buckets mr lr : Int),
      buckets ≠ 0 →
      (∃ e ∈ rest, (e.2.length : Int) ≠ buckets) →
      ∃ m', scanIncoming b m rest buckets mr lr = .fail m'
  | [], m, buckets, mr, lr => by
      intro _ hex
      simp at hex
  | (siid, sis) :: rest, m, buckets, mr, lr => by
      intro hb hex
      by_cases hlen : (sis.length : Int) ≠ buckets
      · refine ⟨if alGet m siid = none then alSet m siid [] else m, ?_⟩
        simp only [scanIncoming]
        rw [if_neg hb, if_pos hlen]
      · have hex' : ∃ e ∈ rest, (e.2.length : Int) ≠ buckets := by
          rcases hex with ⟨e, he, hne⟩
          rcases List.mem_cons.mp he with rfl | he'
          · exact absurd hne hlen
          · exact ⟨e, he', hne⟩
        obtain ⟨m', hm'⟩ := scan_fail_of_disagree b rest
          (if alGet m siid = none then alSet m siid [] else m) buckets mr lr hb hex'
        refine ⟨m', ?_⟩
        simp only [scanIncoming]
        rw [if_neg hb, if_neg hlen]
        exact hm'

/-- C2 (amended): if the incoming map contains series that disagree in
length, `uStatsAdd` returns with `added = 0`, an empty `addedStats` and no
final store (assignment is never reached); this holds provided the first
incoming series is non-empty (an empty first series panics on the `sis[0]`
read instead).  Disagreement only in the index-0 snapshot time is not
rejected, and even a failing add can leave the host's stored series extended
and new empty series created, as the counterexample shows. -/
theorem claim_C2 (stats0 : List (String × HostStats)) (hostname hostaddr siid0 : String)
    (sis0 : List StatsStat) (rest : List (String × List StatsStat))
    (h0 : sis0 ≠ [])
    (hdis : ∃ e ∈ (siid0, sis0) :: rest, e.2.length ≠ sis0.length) :
    ∃ r, uStatsAdd stats0 hostname hostaddr ((siid0, sis0) :: rest) = some r
      ∧ r.added = 0 ∧ r.addedStats = [] ∧ r.completed = false := by
  by_cases hbm : ((alGet stats0 hostname).getD {}).bucketMins = 0
  · refine ⟨{ stats := stats0, added := 0, addedStats := [], completed := false },
      ?_, rfl, rfl, rfl⟩
    simp only [uStatsAdd]
    rw [if_pos hbm]
  · rcases sis0 with _ | ⟨s0, stail⟩
    · exact absurd rfl h0
    · have hbuckets : (((s0 :: stail).length : Nat) : Int) ≠ 0 := by
        simp only [List.length_cons]
        omega
      have hex : ∃ e ∈ rest, ((e.2.length : Nat) : Int) = ((s0 :: stail).length : Int) → False := by
        rcases hdis with ⟨e, he, hne⟩
        rcases List.mem_cons.mp he with rfl | he'
        · exact absurd rfl hne
        · exact ⟨e, he', fun hc => hne (by exact_mod_cast hc)⟩
      have hex' : ∃ e ∈ rest, ((e.2.length : Nat) : Int) ≠ ((s0 :: stail).length : Int) := by
        rcases hex with ⟨e, he, hne⟩
        exact ⟨e, he, hne⟩
      obtain ⟨m', hm'⟩ := scan_fail_of_disagree
        (((alGet stats0 hostname).getD {}).bucketMins * 60) rest
        (if alGet ((((alGet stats0 hostname).getD {}).stats).getD []) siid0 = none then
           alSet ((((alGet stats0 hostname).getD {}).stats).getD []) siid0 []
         else (((alGet stats0 hostname).getD {}).stats).getD [])
        ((s0 :: stail).length : Int) s0.snapshotTaken
        (s0.snapshotTaken - ((s0 :: stail).length : Int)
          * (((alGet stats0 hostname).getD {}).bucketMins * 60))
        hbuckets hex'
      refine ⟨{ stats := earlyState stats0 hostname ((alGet stats0 hostname).getD {}) m',
                added := 0, addedStats := [], completed := false }, ?_, rfl, rfl, rfl⟩
      simp only [uStatsAdd]
      rw [if_neg hbm]
      have hstep : scanIncoming (((alGet stats0 hostname).getD {}).bucketMins * 60)
          ((((alGet stats0 hostname).getD {}).stats).getD [])
          ((siid0, s0 :: stail) :: rest) 0 0 0
          = ScanResult.fail m' := by
        rw [scanIncoming]
        rw [if_pos rfl]
        exact hm'
      rw [hstep]

/-! ### C1: the grid invariants, and when `uStatsAdd` preserves them -/

/-- Every bucket of the series sits on the host's grid: entry `i` carries
`time - bucketSecs * i`. -/
def SeriesAligned (bucketSecs time : Int) (sis : List StatsStat) : Prop :=
  ∀ i : Nat, i < sis.length → (sis.getD i default).snapshotTaken = time - bucketSecs * i

/-- Every stored series of the map sits on the host's grid. -/
def GridAligned (bucketSecs time : Int) (m : SiidMap) : Prop :=
  ∀ e ∈ m, SeriesAligned bucketSecs time e.2

theorem seriesAligned_nil (b t : Int) : SeriesAligned b t [] := by
  intro i hi
  simp at hi

theorem placeholders_length (count base b : Int) :
    (placeholders count base b).length = count.toNat := by
  rw [placeholders, List.length_map, List.length_range]

theorem placeholders_getD (count base b : Int) (i : Nat) (h : i < count.toNat) :
    ((placeholders count base b).getD i default).snapshotTaken = base - b * i := by
  have hrw : (placeholders count base b).getD i default
      = { snapshotTaken := base - b * (i : Int) } := by
    rw [placeholders]
    rw [List.getD_eq_getElem _ _ (by rw [List.length_map, List.length_range]; exact h)]
    rw [List.getElem_map, List.getElem_range]
  rw [hrw]

theorem seriesAligned_tailExtend {b t : Int} {sis : List StatsStat}
    (h : SeriesAligned b t sis) (lr : Int) :
    SeriesAligned b t (tailExtendSeries b t lr sis) := by
  simp only [tailExtendSeries]
  split
  · intro i hi
    rw [List.length_append] at hi
    by_cases hlt : i < sis.length
    · rw [List.getD_append _ _ _ _ hlt]
      exact h i hlt
    · push_neg at hlt
      rw [List.getD_append_right _ _ _ _ hlt]
      rw [placeholders_getD _ _ _ _ (by rw [placeholders_length] at hi; omega)]
      have hcast : ((i - sis.length : Nat) : Int) = (i : Int) - sis.length :=
        Nat.cast_sub hlt
      rw [hcast]
      ring
  · exact h

theorem seriesAligned_frontExtend {b t mr : Int} {sis : List StatsStat}
    (h : SeriesAligned b t sis)
    (hk : b * Int.tdiv (mr - t) b = mr - t)
    (hknn : 0 ≤ Int.tdiv (mr - t) b) :
    SeriesAligned b mr (placeholders (Int.tdiv (mr - t) b) mr b ++ sis) := by
  intro i hi
  rw [List.length_append] at hi
  by_cases hik : i < (placeholders (Int.tdiv (mr - t) b) mr b).length
  · rw [List.getD_append _ _ _ _ hik]
    rw [placeholders_getD _ _ _ _ (by rw [placeholders_length] at hik; exact hik)]
  · push_neg at hik
    rw [List.getD_append_right _ _ _ _ hik]
    rw [h _ (by omega)]
    rw [placeholders_length] at hik ⊢
    have hcast : ((i - (Int.tdiv (mr - t) b).toNat : Nat) : Int)
        = (i : Int) - Int.tdiv (mr - t) b := by
      rw [Nat.cast_sub hik, Int.toNat_of_nonneg hknn]
    rw [hcast]
    linear_combination hk

theorem seriesAligned_set {b t : Int} {sis : List StatsStat}
    (h : SeriesAligned b t sis) {j : Nat} {snew : StatsStat}
    (_hj : j < sis.length) (hw : snew.snapshotTaken = t - b * j) :
    SeriesAligned b t (sis.set j snew) := by
  intro i hi
  rw [List.length_set] at hi
  by_cases hij : j = i
  · subst hij
    rw [List.getD_eq_getElem _ _ (by rw [List.length_set]; exact hi)]
    rw [List.getElem_set_self]
    exact hw
  · rw [List.getD_eq_getElem _ _ (by rw [List.length_set]; exact hi),
      List.getElem_set_ne hij, ← List.getD_eq_getElem _ default hi]
    exact h i hi

/-- The uniformity scan only adds empty series to the stored map. -/
theorem scan_entries (b : Int) :
    ∀ (s : List (String × List StatsStat)) (m : SiidMap) (bu mr lr : Int) (m' : SiidMap),
      scanMap (scanIncoming b m s bu mr lr) = some m' →
      ∀ e, e ∈ m' → e ∈ m ∨ e.2 = []
  | [], m, bu, mr, lr, m' => by
      intro h e he
      simp only [scanIncoming, scanMap, Option.some_inj] at h
      subst h
      exact Or.inl he
  | (siid, sis) :: rest, m, bu, mr, lr, m' => by
      intro h e he
      simp only [scanIncoming] at h
      have hens : ∀ x, x ∈ (if alGet m siid = none then alSet m siid [] else m)
          → x ∈ m ∨ x.2 = [] := by
        intro x hx
        split at hx
        · rcases mem_alSet hx with hx | hx
          · exact Or.inl hx
          · subst hx
            exact Or.inr rfl
        · exact Or.inl hx
      split at h
      · split at h
        · simp [scanMap] at h
        · rcases scan_entries b rest _ _ _ _ _ h e he with he' | he'
          · exact hens e he'
          · exact Or.inr he'
      · split at h
        · simp only [scanMap, Option.some_inj] at h
          subst h
          exact hens e he
        · rcases scan_entries b rest _ _ _ _ _ h e he with he' | he'
          · exact hens e he'
          · exact Or.inr he'

/-- A successful uniformity scan leaves its parameters untouched once the
first series has fixed them. -/
theorem scan_params (b : Int) :
    ∀ (s : List (String × List StatsStat)) (m : SiidMap) (bu mr lr : Int)
      (m' : SiidMap) (bu' mr' lr' : Int),
      scanIncoming b m s bu mr lr = .ok m' bu' mr' lr' → bu ≠ 0 →
      bu' = bu ∧ mr' = mr ∧ lr' = lr
  | [], m, bu, mr, lr, m', bu', mr', lr' => by
      intro h _
      simp only [scanIncoming, ScanResult.ok.injEq] at h
      exact ⟨h.2.1.symm, h.2.2.1.symm, h.2.2.2.symm⟩
  | (siid, sis) :: rest, m, bu, mr, lr, m', bu', mr', lr' => by
      intro h hb
      simp only [scanIncoming] at h
      rw [if_neg hb] at h
      split at h
      · simp at h
      · exact scan_params b rest _ _ _ _ _ _ _ _ h hb

theorem gridAligned_of_entries {b t : Int} {m m' : SiidMap}
    (hsub : ∀ e, e ∈ m' → e ∈ m ∨ e.2 = [])
    (h : GridAligned b t m) : GridAligned b t m' := by
  intro e he
  rcases hsub e he with he' | he'
  · exact h e he'
  · rw [he']
    exact seriesAligned_nil b t

/-- Front extension turns a grid aligned at `t` into one aligned at
`mostRecent`, provided the two grids are compatible. -/
theorem gridAligned_frontExtend {b t mr : Int} {m : SiidMap}
    (h : GridAligned b t m) (hdvd : b ∣ (mr - t)) (hle : t ≤ mr) (hb : 0 < b) :
    GridAligned b mr (frontExtend b mr t m).1 ∧ (frontExtend b mr t m).2 = mr := by
  simp only [frontExtend]
  split
  · rename_i hgt
    refine ⟨?_, rfl⟩
    intro e he
    rcases List.mem_map.mp he with ⟨kv, hkv, rfl⟩
    exact seriesAligned_frontExtend (h kv hkv)
      (Int.mul_tdiv_cancel' hdvd)
      (Int.tdiv_nonneg (by omega) (by omega))
  · rename_i hngt
    have : t = mr := by omega
    subst this
    exact ⟨h, rfl⟩

theorem gridAligned_tailExtend {b t lr : Int} {m : SiidMap}
    (h : GridAligned b t m) : GridAligned b t (tailExtend b t lr m) := by
  intro e he
  rcases List.mem_map.mp he with ⟨kv, hkv, rfl⟩
  exact seriesAligned_tailExtend (h kv hkv) lr

/-- A passing sanity check certifies that all stored series share one
length (the first series' length when the accumulator starts at 0). -/
theorem sanity_lens (b t mr lr : Int) :
    ∀ (m : SiidMap) (hsB : Int),
      sanityCheck b t mr lr m hsB = some true →
      (hsB ≠ 0 → ∀ e ∈ m, (e.2.length : Int) = hsB)
      ∧ (∃ L : Nat, ∀ e ∈ m, e.2.length = L)
  | [], hsB => by
      intro _
      exact ⟨fun _ e he => by simp at he, ⟨0, fun e he => by simp at he⟩⟩
  | (k, sis) :: rest, hsB => by
      intro h
      simp only [sanityCheck] at h
      split at h
      · simp at h
      · rename_i s0 stl
        split at h
        · simp at h
        · split at h
          · simp at h
          · split at h
            · rename_i hsB0
              split at h
              · simp at h
              · obtain ⟨hfix, -⟩ := sanity_lens b t mr lr rest _ h
                refine ⟨fun hne => absurd hsB0 hne, ⟨stl.length + 1, ?_⟩⟩
                intro e he
                rcases List.mem_cons.mp he with rfl | he'
                · simp
                · have := hfix (by simp; omega) e he'
                  exact_mod_cast this
            · rename_i hsBne
              split at h
              · simp at h
              · rename_i hlen
                obtain ⟨hfix, -⟩ := sanity_lens b t mr lr rest hsB h
                have hhead : ((stl.length + 1 : Nat) : Int) = hsB := by
                  simp only [List.length_cons] at hlen
                  push_cast
                  push_cast at hlen
                  omega
                refine ⟨fun _ => ?_, ⟨stl.length + 1, ?_⟩⟩
                · intro e he
                  rcases List.mem_cons.mp he with rfl | he'
                  · simpa using hhead
                  · exact hfix hsBne e he'
                · intro e he
                  rcases List.mem_cons.mp he with rfl | he'
                  · simp
                  · have h1 := hfix hsBne e he'
                    have h2 : (e.2.length : Int) = ((stl.length + 1 : Nat) : Int) := by
                      rw [h1, hhead]
                    exact_mod_cast h2

/-- The assignment loop for one series preserves grid alignment (the incoming
buckets are on the grid) and per-series lengths. -/
theorem assignSeries_invariants (b mr : Int) (siid : String) (hb : 0 < b) (L : Nat) :
    ∀ (sser : List StatsStat) (m : SiidMap) (ns : List StatsStat) (a : Nat)
      (m' : SiidMap) (ns' : List StatsStat) (a' : Nat) (fino : Bool),
      assignSeries b mr siid m sser ns a = some (m', ns', a', fino) →
      GridAligned b mr m →
      (∀ e ∈ m, e.2.length = L) →
      (∀ x ∈ sser, b ∣ (mr - x.snapshotTaken)) →
      GridAligned b mr m' ∧ (∀ e ∈ m', e.2.length = L)
  | [], m, ns, a, m', ns', a', fino => by
      intro h hg hl _
      simp only [assignSeries, Option.some_inj, Prod.mk.injEq] at h
      obtain ⟨rfl, -, -, -⟩ := h
      exact ⟨hg, hl⟩
  | snew :: rest, m, ns, a, m', ns', a', fino => by
      intro h hg hl hdvd
      simp only [assignSeries] at h
      split at h
      · simp only [Option.some_inj, Prod.mk.injEq] at h
        obtain ⟨rfl, -, -, -⟩ := h
        exact ⟨hg, hl⟩
      · split at h
        · exact absurd h (by simp)
        · split at h
          · simp only [Option.some_inj, Prod.mk.injEq] at h
            obtain ⟨rfl, -, -, -⟩ := h
            exact ⟨hg, hl⟩
          · split at h
            · simp only [Option.some_inj, Prod.mk.injEq] at h
              obtain ⟨rfl, -, -, -⟩ := h
              exact ⟨hg, hl⟩
            · rename_i hbound hne hcur hblank
              have hge0 : 0 ≤ Int.tdiv (mr - snew.snapshotTaken) b := by omega
              have hlt : Int.tdiv (mr - snew.snapshotTaken) b
                  < (((alGet m siid).getD []).length : Int) := by omega
              have hjlt : (Int.tdiv (mr - snew.snapshotTaken) b).toNat
                  < ((alGet m siid).getD []).length := by omega
              have hsome : alGet m siid = some ((alGet m siid).getD []) := by
                cases hget : alGet m siid with
                | none =>
                    rw [hget] at hjlt
                    simp at hjlt
                | some sis => simp
              have haligned : SeriesAligned b mr ((alGet m siid).getD []) :=
                hg _ (alGet_mem hsome)
              have hwhen : snew.snapshotTaken
                  = mr - b * (Int.tdiv (mr - snew.snapshotTaken) b).toNat := by
                have hcancel : b * Int.tdiv (mr - snew.snapshotTaken) b
                    = mr - snew.snapshotTaken :=
                  Int.mul_tdiv_cancel' (hdvd snew (by simp))
                rw [Int.toNat_of_nonneg hge0]
                omega
              have hgal : GridAligned b mr
                  (alSet m siid
                    (((alGet m siid).getD []).set
                      (Int.tdiv (mr - snew.snapshotTaken) b).toNat snew)) := by
                intro e he
                rcases mem_alSet he with he' | he'
                · exact hg e he'
                · subst he'
                  exact seriesAligned_set haligned hjlt hwhen
              have hlal : ∀ e ∈ alSet m siid
                  (((alGet m siid).getD []).set
                    (Int.tdiv (mr - snew.snapshotTaken) b).toNat snew), e.2.length = L := by
                intro e he
                rcases mem_alSet he with he' | he'
                · exact hl e he'
                · subst he'
                  simp only [List.length_set]
                  exact hl _ (alGet_mem hsome)
              exact assignSeries_invariants b mr siid hb L rest _ _ _ _ _ _ _ h hgal hlal
                (fun x hx => hdvd x (by simp [hx]))

/-- The full assignment loop preserves grid alignment and lengths. -/
theorem assignAll_invariants (b mr : Int) (hb : 0 < b) (L : Nat) :
    ∀ (s : List (String × List StatsStat)) (m : SiidMap) (a : Nat) (acc : SiidMap)
      (m' : SiidMap) (a' : Nat) (acc' : SiidMap) (fino : Bool),
      assignAll b mr m s a acc = some (m', a', acc', fino) →
      GridAligned b mr m →
      (∀ e ∈ m, e.2.length = L) →
      (∀ e ∈ s, ∀ x ∈ e.2, b ∣ (mr - x.snapshotTaken)) →
      GridAligned b mr m' ∧ (∀ e ∈ m', e.2.length = L)
  | [], m, a, acc, m', a', acc', fino => by
      intro h hg hl _
      simp only [assignAll, Option.some_inj, Prod.mk.injEq] at h
      obtain ⟨rfl, -, -, -⟩ := h
      exact ⟨hg, hl⟩
  | (siid, sser) :: rest, m, a, acc, m', a', acc', fino => by
      intro h hg hl hdvd
      simp only [assignAll] at h
      cases hs : assignSeries b mr siid m sser [] a with
      | none =>
          rw [hs] at h
          simp at h
      | some out =>
          obtain ⟨m1, ns1, a1, fin1⟩ := out
          rw [hs] at h
          obtain ⟨hg1, hl1⟩ := assignSeries_invariants b mr siid hb L sser m [] a _ _ _ _
            hs hg hl (fun x hx => hdvd (siid, sser) (by simp) x hx)
          by_cases hfin : fin1 = true
          · subst hfin
            simp only [if_true] at h
            exact assignAll_invariants b mr hb L rest m1 _ _ _ _ _ _ h hg1 hl1
              (fun e he x hx => hdvd e (by simp [he]) x hx)
          · rw [Bool.not_eq_true] at hfin
            subst hfin
            simp only [Bool.false_eq_true, if_false, Option.some_inj, Prod.mk.injEq] at h
            obtain ⟨rfl, -, -, -⟩ := h
            exact ⟨hg1, hl1⟩

/-- C1 (amended): the grid invariants hold after a completed `uStatsAdd`
provided the incoming series are uniform and on the grid and the pre-state is
a well-formed grid no newer than the incoming window.  The unamended claim
fails for incoming buckets that are not one bucket width apart (see the
counterexample), and a run that aborts inside the assignment loop after a
front extension can leave the stored base time stale, so the conclusion is
stated for completed runs. -/
theorem claim_C1 (stats0 : List (String × HostStats)) (hostname hostaddr : String)
    (s : List (String × List StatsStat)) (r : AddResult) (origHS : HostStats)
    (N : Nat) (mostRecent : Int)
    (hhost : alGet stats0 hostname = some origHS)
    (hbm : 0 < origHS.bucketMins)
    (hpre : GridAligned (origHS.bucketMins * 60) origHS.time (origHS.stats.getD []))
    (hpre0 : origHS.time = 0 → ∀ e ∈ origHS.stats.getD [], e.2 = [])
    (hsne : s ≠ [])
    (hN : 0 < N)
    (hlen : ∀ e ∈ s, e.2.length = N)
    (hheads : ∀ e ∈ s, (e.2.getD 0 default).snapshotTaken = mostRecent)
    (halign : ∀ e ∈ s, ∀ x ∈ e.2,
       (origHS.bucketMins * 60) ∣ (mostRecent - x.snapshotTaken))
    (htime : origHS.time ≤ mostRecent)
    (hdvd : (origHS.bucketMins * 60) ∣ (mostRecent - origHS.time))
    (hadd : uStatsAdd stats0 hostname hostaddr s = some r)
    (hcomp : r.completed = true) :
    ∃ hs', alGet r.stats hostname = some hs'
      ∧ hs'.time = mostRecent
      ∧ (∃ L : Nat, ∀ e ∈ hs'.stats.getD [], e.2.length = L)
      ∧ (∀ e ∈ hs'.stats.getD [], 0 < e.2.length →
           (e.2.getD 0 default).snapshotTaken = hs'.time)
      ∧ (∀ e ∈ hs'.stats.getD [], ∀ i : Nat, i + 1 < e.2.length →
           (e.2.getD i default).snapshotTaken - (e.2.getD (i + 1) default).snapshotTaken
             = origHS.bucketMins * 60) := by
  have hb : 0 < origHS.bucketMins * 60 := by omega
  simp only [uStatsAdd] at hadd
  rw [hhost] at hadd
  simp only [Option.getD_some] at hadd
  rw [if_neg (by omega : ¬origHS.bucketMins = 0)] at hadd
  split at hadd
  · simp at hadd
  · simp only [Option.some_inj] at hadd
    subst hadd
    simp at hcomp
  · rename_i m1 bu mr2 lr hscan
    rcases s with _ | ⟨⟨siid0, sis0⟩, srest⟩
    · exact absurd rfl hsne
    have hlen0 : sis0.length = N := hlen _ (List.mem_cons_self _ _)
    rcases sis0 with _ | ⟨s00, stail⟩
    · simp at hlen0
      omega
    have hent1 : ∀ e, e ∈ m1 → e ∈ (origHS.stats.getD []) ∨ e.2 = [] := by
      intro e he
      have hstep : scanIncoming (origHS.bucketMins * 60) (origHS.stats.getD [])
          ((siid0, s00 :: stail) :: srest) 0 0 0
          = scanIncoming (origHS.bucketMins * 60)
              (if alGet (origHS.stats.getD []) siid0 = none
               then alSet (origHS.stats.getD []) siid0 [] else origHS.stats.getD [])
              srest (((s00 :: stail).length : Nat) : Int) s00.snapshotTaken
              (s00.snapshotTaken
                - (((s00 :: stail).length : Nat) : Int) * (origHS.bucketMins * 60)) := rfl
      rw [hstep] at hscan
      rcases scan_entries _ _ _ _ _ _ _ (by rw [hscan]; rfl) e he with h1 | h1
      · split at h1
        · rcases mem_alSet h1 with h2 | h2
          · exact Or.inl h2
          · subst h2
            exact Or.inr rfl
        · exact Or.inl h1
      · exact Or.inr h1
    have hmr2 : mr2 = mostRecent := by
      have hstep : scanIncoming (origHS.bucketMins * 60) (origHS.stats.getD [])
          ((siid0, s00 :: stail) :: srest) 0 0 0
          = scanIncoming (origHS.bucketMins * 60)
              (if alGet (origHS.stats.getD []) siid0 = none
               then alSet (origHS.stats.getD []) siid0 [] else origHS.stats.getD [])
              srest (((s00 :: stail).length : Nat) : Int) s00.snapshotTaken
              (s00.snapshotTaken
                - (((s00 :: stail).length : Nat) : Int) * (origHS.bucketMins * 60)) := rfl
      rw [hstep] at hscan
      obtain ⟨-, hmr, -⟩ := scan_params _ _ _ _ _ _ _ _ _ _ hscan
        (by simp only [List.length_cons]; push_cast; omega)
      rw [hmr]
      have := hheads (siid0, s00 :: stail) (List.mem_cons_self _ _)
      simpa using this
    subst hmr2
    have htime0le : (if origHS.time = 0 then mr2 else origHS.time) ≤ mr2 := by
      split
      · exact le_refl _
      · exact htime
    have htime0dvd : (origHS.bucketMins * 60)
        ∣ (mr2 - (if origHS.time = 0 then mr2 else origHS.time)) := by
      split
      · simp
      · exact hdvd
    have hgal1 : GridAligned (origHS.bucketMins * 60)
        (if origHS.time = 0 then mr2 else origHS.time) m1 := by
      split
      · rename_i ht0
        intro e he
        rcases hent1 e he with h1 | h1
        · rw [hpre0 ht0 e h1]
          exact seriesAligned_nil _ _
        · rw [h1]
          exact seriesAligned_nil _ _
      · exact gridAligned_of_entries hent1 hpre
    obtain ⟨hgal2, hfr2⟩ := gridAligned_frontExtend hgal1 htime0dvd htime0le hb
    have hgal3 : GridAligned (origHS.bucketMins * 60) mr2
        (tailExtend (origHS.bucketMins * 60)
          (frontExtend (origHS.bucketMins * 60) mr2
            (if origHS.time = 0 then mr2 else origHS.time) m1).2 lr
          (frontExtend (origHS.bucketMins * 60) mr2
            (if origHS.time = 0 then mr2 else origHS.time) m1).1) := by
      rw [hfr2]
      exact gridAligned_tailExtend hgal2
    split at hadd
    · simp at hadd
    · simp only [Option.some_inj] at hadd
      subst hadd
      simp at hcomp
    · rename_i hsan
      split at hadd
      · simp at hadd
      · rename_i m4 a4 acc4 fin4 hassign
        obtain ⟨-, L, hL⟩ := sanity_lens _ _ _ _ _ _ hsan
        split at hadd
        · rename_i hfin
          simp only [Option.some_inj] at hadd
          subst hadd
          obtain ⟨hg4, hl4⟩ := assignAll_invariants (origHS.bucketMins * 60) mr2 hb L
            _ _ _ _ _ _ _ _ hassign hgal3 hL halign
          refine ⟨_, alGet_alSet_self _ _ _, ?_, ⟨L, ?_⟩, ?_, ?_⟩
          · simpa using hfr2
          · simpa using hl4
          · intro e he hlen'
            have := hg4 e (by simpa using he) 0 hlen'
            simpa [hfr2] using this
          · intro e he i hi
            have h1 := hg4 e (by simpa using he) i (by omega)
            have h2 := hg4 e (by simpa using he) (i + 1) hi
            rw [h1, h2]
            push_cast
            ring
        · rename_i hfin
          simp only [Option.some_inj] at hadd
          subst hadd
          simp at hcomp

/-- A grid-aligned uniform incoming map for the C1 witness (bucket width
300, buckets at 1500 and 1200). -/
def c1AlignedIncoming : List (String × List StatsStat) :=
  [("A", [{ snapshotTaken := 1500, osMemTotal := 1024 },
          { snapshotTaken := 1200, osMemTotal := 1024 }])]

/-- Witness for C1 (amended): the aligned two-bucket add on the empty
300-second host satisfies all hypotheses and yields an aligned uniform
grid. -/
theorem claim_C1_witness :
    ∃ hs', alGet ((uStatsAdd s2Host0 "h" "a" c1AlignedIncoming).getD default).stats "h"
        = some hs'
      ∧ hs'.time = 1500
      ∧ (∃ L : Nat, ∀ e ∈ hs'.stats.getD [], e.2.length = L)
      ∧ (∀ e ∈ hs'.stats.getD [], 0 < e.2.length →
           (e.2.getD 0 default).snapshotTaken = hs'.time)
      ∧ (∀ e ∈ hs'.stats.getD [], ∀ i : Nat, i + 1 < e.2.length →
           (e.2.getD i default).snapshotTaken - (e.2.getD (i + 1) default).snapshotTaken
             = ({ name := "h", addr := "a", bucketMins := 5 } : HostStats).bucketMins * 60) := by
  refine claim_C1 s2Host0 "h" "a" c1AlignedIncoming
    ((uStatsAdd s2Host0 "h" "a" c1AlignedIncoming).getD default)
    { name := "h", addr := "a", bucketMins := 5 } 2 1500
    (by decide) (by decide) ?_ ?_ (by decide) (by decide) (by decide) (by decide)
    (by decide) (by decide) (by decide) (by decide) (by decide)
  · intro e he
    simp at he
  · intro _ e he
    simp at he

/-- Witness for C2 (amended): an incoming map whose second series is empty
while the first has one bucket disagrees in length, and the add returns
`added = 0` with nothing assigned. -/
theorem claim_C2_witness :
    ∃ r, uStatsAdd c2State1 "h" "a"
        [("A", [{ snapshotTaken := 1000, osMemTotal := 1024 }]), ("B", [])] = some r
      ∧ r.added = 0 ∧ r.addedStats = [] ∧ r.completed = false :=
  claim_C2 c2State1 "h" "a" "A" [{ snapshotTaken := 1000, osMemTotal := 1024 }]
    [("B", [])] (by decide) (by decide)


end Notehub
